import Mathlib

/-!
Shallow embedding of the job-orchestration engine of the phishing-web-crawler
repository: the SQLite-backed job store (`State` in src/crawler/state.py) and
the job-queue worker (`JobQueueWorker` in src/crawler/jobqueue.py), together
with a model of the earlier draft worker (src/jobqueue.py) where a claim
refers to it.

The `jobs` table is modelled as a list of rows in rowid order; the
`id INTEGER PRIMARY KEY AUTOINCREMENT` column is modelled by a `next_id`
counter.  Wall-clock timestamps (`datetime.now(timezone.utc).isoformat()`)
are modelled by a logical clock `now` that advances on every insert; this
preserves the only thing the code observes about them, their relative order.
The backend adapters (BrowsertrixClient, WBDownloader) are external network
and subprocess collaborators; they enter the model as abstract functions
returning the status dictionaries that `_reconcile` consumes and the
job names that `_handle_job` records.
-/

namespace Crawler

/-- One row of the `jobs` table (SCHEMA in src/crawler/state.py).  `job_name`
and `link` are nullable TEXT columns; NULL is modelled as `""`.  `attempts`
has DEFAULT 0 and is only ever written as a previous value plus one, so it is
a `Nat`. -/
structure Job where
  id : Nat
  job_name : String
  type : String
  url : String
  nca_id : Int
  validation_date : String
  link : String
  priority : Int
  attempts : Nat
  status : String
  crawl_count : Int
  last_crawl_file_count : Int
  created_at : Nat
  updated_at : Nat
  deriving DecidableEq, Repr

/-- The column list of the `jobs` table exactly as created by SCHEMA in
src/crawler/state.py. -/
def jobs_table_columns : List String :=
  ["id", "job_name", "type", "url", "nca_id", "validation_date", "link",
   "priority", "attempts", "status", "crawl_count", "last_crawl_file_count",
   "created_at", "updated_at"]

/-- The durable store behind `State` (src/crawler/state.py): the `jobs` table
in rowid order, the AUTOINCREMENT counter for the next id, and the logical
clock standing for `datetime.now()`. -/
structure State where
  jobs : List Job
  next_id : Nat
  now : Nat
  deriving DecidableEq, Repr

/-- A freshly created database: empty `jobs` table, AUTOINCREMENT starts
at 1. -/
def State.init : State := { jobs := [], next_id := 1, now := 0 }

/-- The WHERE clause of the duplicate check in `enqueue_job_unique`:
`type=? AND url=? AND status='PENDING'`. -/
def isPendingFor (job_type url : String) (j : Job) : Bool :=
  j.type == job_type && j.url == url && j.status == "PENDING"

/-- `State.enqueue_job_unique` (src/crawler/state.py): insert a PENDING job
unless a job of the same url + type with status PENDING exists; return the
new rowid, or `none` when skipped.  The INSERT leaves `job_name` and `link`
NULL and relies on the column defaults for `attempts`, `crawl_count` and
`last_crawl_file_count`. -/
def State.enqueue_job_unique (s : State) (job_type url : String) (nca_id : Int)
    (validation_date : String) (priority : Int := 100) : State × Option Nat :=
  if s.jobs.any (isPendingFor job_type url) then (s, none)
  else
    let j : Job :=
      { id := s.next_id, job_name := "", type := job_type, url := url,
        nca_id := nca_id, validation_date := validation_date, link := "",
        priority := priority, attempts := 0, status := "PENDING",
        crawl_count := 0, last_crawl_file_count := 0,
        created_at := s.now, updated_at := s.now }
    ({ jobs := s.jobs ++ [j], next_id := s.next_id + 1, now := s.now + 1 },
     some s.next_id)

/-- The `ORDER BY priority ASC, created_at ASC` relation of
`fetch_next_pending`. -/
def jobLE (a b : Job) : Prop :=
  a.priority < b.priority ∨ (a.priority = b.priority ∧ a.created_at ≤ b.created_at)

instance : DecidableRel jobLE := fun a b => by unfold jobLE; infer_instance

instance : IsTrans Job jobLE := by
  constructor
  intro a b c hab hbc
  unfold jobLE at *
  omega

instance : IsTotal Job jobLE := by
  constructor
  intro a b
  unfold jobLE
  omega

/-- `State.fetch_next_pending` (src/crawler/state.py): the PENDING rows of the
given type, ordered by priority then created_at, truncated by `LIMIT ?`.
In SQLite a negative LIMIT means no limit. -/
def State.fetch_next_pending (s : State) (job_type : String) (limit : Int) : List Job :=
  let rows := s.jobs.filter fun j => j.status == "PENDING" && j.type == job_type
  let sorted := List.insertionSort jobLE rows
  if limit < 0 then sorted else sorted.take limit.toNat

/-- An `UPDATE jobs SET ... WHERE id=?` statement: apply `f` to every row
whose id matches (the PRIMARY KEY makes at most one row match in the real
database; the theorems below carry this as a `Nodup` hypothesis where they
need it). -/
def State.updateJob (s : State) (id : Nat) (f : Job → Job) : State :=
  { s with jobs := s.jobs.map fun j => if j.id == id then f j else j }

/-- `SELECT ... FROM jobs WHERE id=? / fetchone()`. -/
def State.findRow (s : State) (id : Nat) : Option Job :=
  s.jobs.find? fun j => j.id == id

/-- `State.mark_running` (src/crawler/state.py). -/
def State.mark_running (s : State) (job_id : Nat) : State :=
  s.updateJob job_id fun j => { j with status := "RUNNING", updated_at := s.now }

/-- `State.mark_finished` (src/crawler/state.py): terminal success, recording
the result metrics.  Note the stored literal is 'FINISHED'. -/
def State.mark_finished (s : State) (job_id : Nat) (crawl_count file_count : Int) : State :=
  s.updateJob job_id fun j =>
    { j with status := "FINISHED", crawl_count := crawl_count,
             last_crawl_file_count := file_count, updated_at := s.now }

/-- `State.mark_failed` (src/crawler/state.py): read the row's attempts, add
one, then set FAILED when `attempts >= max_retries` and otherwise put the job
back to PENDING.  `max_retries` defaults to 0. -/
def State.mark_failed (s : State) (job_id : Nat) (max_retries : Int := 0) : State :=
  let attempts : Nat := (match s.findRow job_id with | some j => j.attempts | none => 0) + 1
  if max_retries ≤ (attempts : Int) then
    s.updateJob job_id fun j =>
      { j with status := "FAILED", attempts := attempts, updated_at := s.now }
  else
    s.updateJob job_id fun j =>
      { j with status := "PENDING", attempts := attempts, updated_at := s.now }

/-- `State.count_running_jobs` (src/crawler/state.py):
`COUNT(*) WHERE status='RUNNING' and type=?`. -/
def State.count_running_jobs (s : State) (job_type : String) : Nat :=
  s.jobs.countP fun j => j.status == "RUNNING" && j.type == job_type

/-- `State.list_running_jobs` (src/crawler/state.py): all RUNNING rows, any
type, in rowid order. -/
def State.list_running_jobs (s : State) : List Job :=
  s.jobs.filter fun j => j.status == "RUNNING"

/-- Modelled from the spec: `update_backend_handle(id, handle)`.  The worker
calls `State.update_job_info(job_id, job_name, job_link)` after a successful
launch, but src/crawler/state.py defines no such method (only
`update_job_name`); the spec's store contract records the backend handle at
successful launch, so the missing method is modelled as writing `job_name`
and `link`. -/
def State.update_job_info (s : State) (job_id : Nat) (job_name link : String) : State :=
  s.updateJob job_id fun j =>
    { j with job_name := job_name, link := link, updated_at := s.now }

/-- Projections used by the theorems. -/
def State.rowStatus (s : State) (id : Nat) : Option String :=
  (s.findRow id).map Job.status

def State.rowAttempts (s : State) (id : Nat) : Option Nat :=
  (s.findRow id).map Job.attempts

/-! ## The worker (src/crawler/jobqueue.py) -/

def LIVE_CRAWL : String := "LIVE_CRAWL"

def WAYBACK_DOWNLOAD : String := "WAYBACK_DOWNLOAD"

/-- The canonical status dictionary consumed by `_reconcile`: what
`_get_job_status` returns after the adapters translate their backends'
vocabulary (`BrowsertrixClient._convert_status`, `WBDownloader`). -/
structure BackendStatus where
  status : String
  crawl_count : Int
  file_count : Int
  deriving DecidableEq, Repr

/-- `JobQueueWorker._handle_job` (src/crawler/jobqueue.py) as it affects the
store.  `launch` abstracts the backend adapter call for the job's type
(BrowsertrixClient.create_job plus the link construction, or
WBDownloader.create_job): `some (name, link)` is a launch call that returns,
after which `update_job_info` records the handle; `none` is a launch call
that raises, which `run_forever` catches and only logs, leaving the store
untouched.  A job of any other type is logged and the method returns without
touching the store. -/
def handle_job (launch : Job → Option (String × String)) (s : State) (job : Job) : State :=
  if job.type == LIVE_CRAWL || job.type == WAYBACK_DOWNLOAD then
    match launch job with
    | some nl => s.update_job_info job.id nl.1 nl.2
    | none => s
  else s

/-- One iteration of the for-loop in `JobQueueWorker._reconcile`
(src/crawler/jobqueue.py), for the snapshot row `job`:
FINISHED marks the job finished with the reported metrics, FAILED marks it
failed with the configured max_retries for WAYBACK_DOWNLOAD jobs and 0
otherwise, RUNNING falls through, and any other status is only logged. -/
def reconcile_step (getStatus : String → String → BackendStatus) (max_retries : Int)
    (s : State) (job : Job) : State :=
  let st := getStatus job.type job.job_name
  if st.status == "FINISHED" then s.mark_finished job.id st.crawl_count st.file_count
  else if st.status == "FAILED" then
    s.mark_failed job.id (if job.type == WAYBACK_DOWNLOAD then max_retries else 0)
  else s

/-- `JobQueueWorker._reconcile` (src/crawler/jobqueue.py): iterate over the
snapshot of RUNNING rows. -/
def reconcile (getStatus : String → String → BackendStatus) (max_retries : Int)
    (s : State) : State :=
  s.list_running_jobs.foldl (reconcile_step getStatus max_retries) s

/-- One arm of `run_forever`'s per-type loop (src/crawler/jobqueue.py):
`capacity = max_parallel[type] - count_running(type)`; skip the type when
capacity is not positive, otherwise fetch up to `capacity` pending jobs. -/
def live_candidates (s : State) (max_parallel_crawl : Int) : List Job :=
  let capacity := max_parallel_crawl - (s.count_running_jobs LIVE_CRAWL : Int)
  if capacity ≤ 0 then [] else s.fetch_next_pending LIVE_CRAWL capacity

/-- The WAYBACK_DOWNLOAD arm of the same loop. -/
def wb_candidates (s : State) (max_parallel_download : Int) : List Job :=
  let capacity := max_parallel_download - (s.count_running_jobs WAYBACK_DOWNLOAD : Int)
  if capacity ≤ 0 then [] else s.fetch_next_pending WAYBACK_DOWNLOAD capacity

/-- The full candidate list `jobs` built by one `run_forever` iteration; both
arms read the same pre-dispatch state. -/
def dispatch_candidates (s : State) (max_parallel_crawl max_parallel_download : Int) :
    List Job :=
  live_candidates s max_parallel_crawl ++ wb_candidates s max_parallel_download

/-- The body of `run_forever`'s dispatch loop for one candidate: mark it
RUNNING first, then run `_handle_job` inside try/except (an exception is
logged and nothing else happens). -/
def dispatch_one (launch : Job → Option (String × String)) (s : State) (job : Job) : State :=
  handle_job launch (s.mark_running job.id) job

/-- The dispatch half of one `run_forever` iteration. -/
def dispatch (launch : Job → Option (String × String))
    (max_parallel_crawl max_parallel_download : Int) (s : State) : State :=
  (dispatch_candidates s max_parallel_crawl max_parallel_download).foldl
    (dispatch_one launch) s

/-- One iteration of `run_forever`'s while-loop (src/crawler/jobqueue.py):
reconcile, then dispatch. -/
def tick (getStatus : String → String → BackendStatus)
    (launch : Job → Option (String × String))
    (max_parallel_crawl max_parallel_download max_retries : Int) (s : State) : State :=
  dispatch launch max_parallel_crawl max_parallel_download
    (reconcile getStatus max_retries s)

/-- The store mutations of the running system: producer enqueues (the
scheduler calling `enqueue_job_unique`) interleaved with worker loop
iterations.  The adapter behavior of a tick is part of the event. -/
inductive Event where
  | enqueue (job_type url : String) (nca_id : Int) (validation_date : String)
      (priority : Int)
  | tick (getStatus : String → String → BackendStatus)
      (launch : Job → Option (String × String)) (max_retries : Int)

def applyEvent (max_parallel_crawl max_parallel_download : Int) (s : State) :
    Event → State
  | .enqueue jt url nca vd pri => (s.enqueue_job_unique jt url nca vd pri).1
  | .tick gs la mr => tick gs la max_parallel_crawl max_parallel_download mr s

/-- Run a sequence of events from a given store. -/
def runFrom (max_parallel_crawl max_parallel_download : Int) (s : State)
    (es : List Event) : State :=
  es.foldl (applyEvent max_parallel_crawl max_parallel_download) s

/-- Run a sequence of events from the freshly created database. -/
def run (max_parallel_crawl max_parallel_download : Int) (es : List Event) : State :=
  runFrom max_parallel_crawl max_parallel_download State.init es

/-- Modelled from the spec: `is_target_active(target_key) -> bool`, true if
any RUNNING job exists for that key, across types.  No such operation exists
in src/crawler/state.py; it is stated here only to compare the dispatcher
against the spec's per-target exclusion. -/
def spec_is_target_active (s : State) (target_key : String) : Bool :=
  s.jobs.any fun j => j.status == "RUNNING" && j.url == target_key

/-! ## The earlier draft worker (src/jobqueue.py) -/

/-- A job as seen by the draft worker (src/jobqueue.py): its payload's
`job_names` entry lists the backend job names recorded at launch (empty when
launch never recorded a handle). -/
structure DraftJob where
  id : Nat
  type : String
  domain : String
  job_names : List String
  status : String
  deriving DecidableEq, Repr

structure DraftState where
  jobs : List DraftJob
  deriving DecidableEq, Repr

/-- Modelled from the spec: `mark_succeeded(id, result_metrics)` — called by
src/jobqueue.py but defined by neither src/state.py (which has no jobs table)
nor src/crawler/state.py; per the spec's store contract it sets the terminal
success status. -/
def DraftState.mark_succeeded (s : DraftState) (id : Nat) : DraftState :=
  { jobs := s.jobs.map fun j => if j.id == id then { j with status := "SUCCEEDED" } else j }

/-- Modelled from the spec: `list_running() -> [Job]`, used by the draft
`_reconcile`; src/state.py defines no jobs table at all. -/
def DraftState.list_running_jobs (s : DraftState) : List DraftJob :=
  s.jobs.filter fun j => j.status == "RUNNING"

/-- One iteration of the draft `JobQueueWorker._reconcile` loop
(src/jobqueue.py): a RUNNING job with no recorded job_names is marked
SUCCEEDED outright ("No way to reconcile"); otherwise it is marked SUCCEEDED
exactly when no underlying name reports RUNNING or UNBUILT. -/
def draft_reconcile_step (getStatus : String → String) (s : DraftState)
    (job : DraftJob) : DraftState :=
  if job.job_names.isEmpty then s.mark_succeeded job.id
  else if job.job_names.all
      (fun n => !(getStatus n == "RUNNING") && !(getStatus n == "UNBUILT")) then
    s.mark_succeeded job.id
  else s

/-- The draft `JobQueueWorker._reconcile` (src/jobqueue.py). -/
def draft_reconcile (getStatus : String → String) (s : DraftState) : DraftState :=
  s.list_running_jobs.foldl (draft_reconcile_step getStatus) s

def DraftState.findRow (s : DraftState) (id : Nat) : Option DraftJob :=
  s.jobs.find? fun j => j.id == id

def DraftState.rowStatus (s : DraftState) (id : Nat) : Option String :=
  (s.findRow id).map DraftJob.status

/-- The spec's per-target mutual-exclusion invariant: at most one RUNNING job
per target_key (url) across all types. -/
def atMostOneRunningPerTarget (s : State) : Prop :=
  ∀ u : String,
    s.jobs.countP (fun j => j.status == "RUNNING" && j.url == u) ≤ 1

/-! ## Concrete fixtures used by the individual claim theorems -/

/-- The row `enqueue_job_unique` inserts (its INSERT statement plus the
column defaults). -/
def enqueuedJob (s : State) (jt url : String) (nca : Int) (vd : String) (pri : Int) : Job :=
  { id := s.next_id, job_name := "", type := jt, url := url, nca_id := nca,
    validation_date := vd, link := "", priority := pri, attempts := 0,
    status := "PENDING", crawl_count := 0, last_crawl_file_count := 0,
    created_at := s.now, updated_at := s.now }

/-- A row as `enqueue_job_unique` would create it, for building concrete
stores in the claim theorems. -/
def sampleJob (id : Nat) (job_type url status : String) (created_at : Nat) : Job :=
  { id := id, job_name := "", type := job_type, url := url, nca_id := 1,
    validation_date := "2025-01-01", link := "", priority := 100, attempts := 0,
    status := status, crawl_count := 0, last_crawl_file_count := 0,
    created_at := created_at, updated_at := created_at }

/-- Two enqueues for the same url under different types, then one worker
iteration with one slot per type. -/
def c2_events : List Event :=
  [Event.enqueue LIVE_CRAWL "https://evil.example/" 1 "2025-01-01" 100,
   Event.enqueue WAYBACK_DOWNLOAD "https://evil.example/" 1 "2025-01-01" 100,
   Event.tick (fun _ _ => { status := "RUNNING", crawl_count := 0, file_count := 0 })
     (fun _ => some ("h", "l")) 3]

def c2_state : State := run 1 1 c2_events

/-- A store with a RUNNING WAYBACK_DOWNLOAD job and a PENDING LIVE_CRAWL job
for the same url. -/
def c2w_job : Job := sampleJob 2 LIVE_CRAWL "https://evil.example/" "PENDING" 1

def c2w_state : State :=
  { jobs := [sampleJob 1 WAYBACK_DOWNLOAD "https://evil.example/" "RUNNING" 0, c2w_job],
    next_id := 3, now := 2 }

/-- One store with a single FAILED row. -/
def c3_state : State :=
  { jobs := [sampleJob 1 LIVE_CRAWL "https://evil.example/" "FAILED" 0],
    next_id := 2, now := 1 }

/-- One enqueued LIVE_CRAWL job, then one worker iteration whose adapter
launch raises (`none`). -/
def c5_state : State :=
  tick (fun _ _ => { status := "RUNNING", crawl_count := 0, file_count := 0 })
    (fun _ => none) 1 1 3
    (State.init.enqueue_job_unique LIVE_CRAWL "https://evil.example/" 1 "2025-01-01" 100).1

/-- A draft store holding one RUNNING job whose payload records no backend
job names. -/
def c6_state : DraftState :=
  { jobs := [{ id := 1, type := "LIVE_CREATE", domain := "evil.example",
               job_names := [], status := "RUNNING" }] }

def c7_job : Job := sampleJob 1 LIVE_CRAWL "https://evil.example/" "RUNNING" 0

def c7_state : State := { jobs := [c7_job], next_id := 2, now := 5 }

/-- A claimed job of a type outside the closed set. -/
def c8_job : Job := sampleJob 1 "BOGUS" "https://evil.example/" "PENDING" 0

def c8_state : State := { jobs := [c8_job], next_id := 2, now := 1 }

def c9_state : State :=
  { jobs := [sampleJob 1 LIVE_CRAWL "https://a.example/" "PENDING" 0,
             sampleJob 2 WAYBACK_DOWNLOAD "https://b.example/" "PENDING" 1,
             sampleJob 3 LIVE_CRAWL "https://c.example/" "PENDING" 2],
    next_id := 4, now := 3 }

def c10_live_job : Job := sampleJob 1 LIVE_CRAWL "https://evil.example/" "RUNNING" 0

def c10_live_state : State := { jobs := [c10_live_job], next_id := 2, now := 3 }

def c10_wb_job : Job := sampleJob 1 WAYBACK_DOWNLOAD "https://evil.example/" "RUNNING" 0

def c10_wb_state : State := { jobs := [c10_wb_job], next_id := 2, now := 3 }

/-! ## Well-formedness: what the PRIMARY KEY and AUTOINCREMENT guarantee -/

/-- Distinctness of rowids, the `id INTEGER PRIMARY KEY` constraint. -/
def NodupIds (s : State) : Prop := (s.jobs.map Job.id).Nodup

/-- The AUTOINCREMENT discipline: ids are distinct and below `next_id`. -/
def WF (s : State) : Prop := NodupIds s ∧ ∀ j ∈ s.jobs, j.id < s.next_id

/-- The (id, type, status) projection of a row.  Dispatch changes rows only
by setting candidate statuses to RUNNING and recording handle, link and
timestamp fields, which this projection ignores. -/
def proj (j : Job) : Nat × String × String := (j.id, j.type, j.status)

/-- Setting the status of every row whose id is in `ids` to RUNNING, at
projection level. -/
def markIds (ids : List Nat) (p : Nat × String × String) : Nat × String × String :=
  if p.1 ∈ ids then (p.1, p.2.1, "RUNNING") else p

/-- The effect of one `_reconcile` iteration on the row it addresses, as a
function of the adapter's reported status: FINISHED records the metrics and
finishes the job, FAILED routes through `mark_failed` with the configured
retries for WAYBACK_DOWNLOAD and 0 otherwise, anything else (RUNNING,
UNKNOWN, ...) leaves the row untouched. -/
def reconcile_row (getStatus : String → String → BackendStatus) (max_retries : Int)
    (now : Nat) (j : Job) : Job :=
  let st := getStatus j.type j.job_name
  if st.status == "FINISHED" then
    { j with status := "FINISHED", crawl_count := st.crawl_count,
             last_crawl_file_count := st.file_count, updated_at := now }
  else if st.status == "FAILED" then
    if (if j.type == WAYBACK_DOWNLOAD then max_retries else 0) ≤ ((j.attempts + 1 : Nat) : Int)
    then { j with status := "FAILED", attempts := j.attempts + 1, updated_at := now }
    else { j with status := "PENDING", attempts := j.attempts + 1, updated_at := now }
  else j

/-- The spec's capacity invariant: per type, no more RUNNING jobs than
max_parallel of that type. -/
def Inv (max_parallel_crawl max_parallel_download : Int) (s : State) : Prop :=
  ((s.count_running_jobs LIVE_CRAWL : Int) ≤ max_parallel_crawl) ∧
  ((s.count_running_jobs WAYBACK_DOWNLOAD : Int) ≤ max_parallel_download)

/-! ## Row-level lemmas about UPDATE ... WHERE id=? -/

theorem find?_update_self (l : List Job) (id : Nat) (f : Job → Job)
    (hf : ∀ j, (f j).id = j.id) :
    (l.map fun j => if j.id == id then f j else j).find? (fun j => j.id == id)
      = (l.find? fun j => j.id == id).map f := by
  induction l with
  | nil => rfl
  | cons j js ih =>
    by_cases h : j.id = id
    · rw [List.map_cons,
          List.find?_cons_of_pos _ (by simp [h, hf]),
          List.find?_cons_of_pos _ (by simp [h])]
      simp [h]
    · rw [List.map_cons,
          List.find?_cons_of_neg _ (by simp [h]),
          List.find?_cons_of_neg _ (by simp [h]), ih]

theorem find?_update_ne (l : List Job) (id id' : Nat) (f : Job → Job)
    (h : id' ≠ id) (hf : ∀ j, (f j).id = j.id) :
    (l.map fun j => if j.id == id then f j else j).find? (fun j => j.id == id')
      = l.find? (fun j => j.id == id') := by
  induction l with
  | nil => rfl
  | cons j js ih =>
    by_cases hj : j.id = id
    · have hne : ¬ j.id = id' := by rw [hj]; exact fun hc => h hc.symm
      rw [List.map_cons,
          List.find?_cons_of_neg _ (by simp [hj, hf, Ne.symm h]),
          List.find?_cons_of_neg _ (by simp [hne]), ih]
    · by_cases hj' : j.id = id'
      · rw [List.map_cons,
            List.find?_cons_of_pos _ (by simp [hj, hj', h]),
            List.find?_cons_of_pos _ (by simp [hj'])]
        simp [hj]
      · rw [List.map_cons,
            List.find?_cons_of_neg _ (by simp [hj, hj']),
            List.find?_cons_of_neg _ (by simp [hj']), ih]

theorem findRow_updateJob_self (s : State) (id : Nat) (f : Job → Job)
    (hf : ∀ j, (f j).id = j.id) :
    (s.updateJob id f).findRow id = (s.findRow id).map f :=
  find?_update_self s.jobs id f hf

theorem findRow_updateJob_ne (s : State) (id id' : Nat) (f : Job → Job)
    (h : id' ≠ id) (hf : ∀ j, (f j).id = j.id) :
    (s.updateJob id f).findRow id' = s.findRow id' :=
  find?_update_ne s.jobs id id' f h hf

theorem id_inj_of_nodup {s : State} (h : NodupIds s) {a b : Job}
    (ha : a ∈ s.jobs) (hb : b ∈ s.jobs) (hab : a.id = b.id) : a = b :=
  List.inj_on_of_nodup_map h ha hb hab

theorem findRow_of_mem_nodup {s : State} (h : NodupIds s) {j : Job}
    (hj : j ∈ s.jobs) : s.findRow j.id = some j := by
  have hs : (s.jobs.find? fun x => x.id == j.id).isSome :=
    List.find?_isSome.mpr ⟨j, hj, by simp⟩
  obtain ⟨x, hx⟩ := Option.isSome_iff_exists.mp hs
  have hpx : x.id = j.id := by simpa using List.find?_some hx
  have hxj : x = j := id_inj_of_nodup h (List.mem_of_find?_eq_some hx) hj hpx
  show s.jobs.find? (fun x => x.id == j.id) = some j
  rw [hx, hxj]

/-- The store operations that reconciliation and dispatch perform each touch
only the rows of one id; a fold over elements whose ids avoid `id` leaves the
row of `id` alone. -/
theorem foldl_findRow_untouched (step : State → Job → State) (id : Nat)
    (hstep : ∀ st c, c.id ≠ id → (step st c).findRow id = st.findRow id) :
    ∀ (l : List Job) (st : State), (∀ c ∈ l, c.id ≠ id) →
      (l.foldl step st).findRow id = st.findRow id := by
  intro l
  induction l with
  | nil => intro st _; rfl
  | cons c cs ih =>
    intro st hl
    have h1 : c.id ≠ id := hl c (by simp)
    have h2 : ∀ x ∈ cs, x.id ≠ id := fun x hx => hl x (by simp [hx])
    simp only [List.foldl_cons]
    rw [ih (step st c) h2, hstep st c h1]

theorem foldl_now_next_preserved (step : State → Job → State)
    (h : ∀ st c, (step st c).now = st.now ∧ (step st c).next_id = st.next_id) :
    ∀ (l : List Job) (st : State),
      (l.foldl step st).now = st.now ∧ (l.foldl step st).next_id = st.next_id := by
  intro l
  induction l with
  | nil => intro st; exact ⟨rfl, rfl⟩
  | cons c cs ih =>
    intro st
    simp only [List.foldl_cons]
    obtain ⟨h1, h2⟩ := ih (step st c)
    obtain ⟨h3, h4⟩ := h st c
    exact ⟨h1.trans h3, h2.trans h4⟩

theorem foldl_ids_preserved (step : State → Job → State)
    (h : ∀ st c, (step st c).jobs.map Job.id = st.jobs.map Job.id) :
    ∀ (l : List Job) (st : State),
      (l.foldl step st).jobs.map Job.id = st.jobs.map Job.id := by
  intro l
  induction l with
  | nil => intro st; rfl
  | cons c cs ih =>
    intro st
    simp only [List.foldl_cons]
    rw [ih (step st c), h st c]

theorem updateJob_ids (s : State) (id : Nat) (f : Job → Job)
    (hf : ∀ j, (f j).id = j.id) :
    (s.updateJob id f).jobs.map Job.id = s.jobs.map Job.id := by
  show (s.jobs.map _).map Job.id = s.jobs.map Job.id
  rw [List.map_map]
  exact List.map_congr_left fun j _ => by by_cases h : j.id = id <;> simp [h, hf]

theorem mark_running_findRow_ne (s : State) (id id' : Nat) (h : id' ≠ id) :
    (s.mark_running id).findRow id' = s.findRow id' :=
  findRow_updateJob_ne s id id' _ h (fun _ => rfl)

theorem mark_finished_findRow_ne (s : State) (id id' : Nat) (cc fc : Int) (h : id' ≠ id) :
    (s.mark_finished id cc fc).findRow id' = s.findRow id' :=
  findRow_updateJob_ne s id id' _ h (fun _ => rfl)

theorem update_job_info_findRow_ne (s : State) (id id' : Nat) (n l : String) (h : id' ≠ id) :
    (s.update_job_info id n l).findRow id' = s.findRow id' :=
  findRow_updateJob_ne s id id' _ h (fun _ => rfl)

theorem mark_failed_findRow_ne (s : State) (id id' : Nat) (mr : Int) (h : id' ≠ id) :
    (s.mark_failed id mr).findRow id' = s.findRow id' := by
  simp only [State.mark_failed]
  split
  · exact findRow_updateJob_ne s id id' _ h (fun _ => rfl)
  · exact findRow_updateJob_ne s id id' _ h (fun _ => rfl)

theorem reconcile_step_findRow_ne (gs : String → String → BackendStatus) (mr : Int)
    (st : State) (c : Job) (id : Nat) (h : c.id ≠ id) :
    (reconcile_step gs mr st c).findRow id = st.findRow id := by
  simp only [reconcile_step]
  by_cases h1 : ((gs c.type c.job_name).status == "FINISHED") = true
  · rw [if_pos h1]
    exact mark_finished_findRow_ne st c.id id _ _ (Ne.symm h)
  · rw [if_neg h1]
    by_cases h2 : ((gs c.type c.job_name).status == "FAILED") = true
    · rw [if_pos h2]
      exact mark_failed_findRow_ne st c.id id _ (Ne.symm h)
    · rw [if_neg h2]

theorem dispatch_one_findRow_ne (la : Job → Option (String × String))
    (st : State) (c : Job) (id : Nat) (h : c.id ≠ id) :
    (dispatch_one la st c).findRow id = st.findRow id := by
  simp only [dispatch_one, handle_job]
  have hm : (st.mark_running c.id).findRow id = st.findRow id :=
    mark_running_findRow_ne st c.id id (Ne.symm h)
  by_cases ht : (c.type == LIVE_CRAWL || c.type == WAYBACK_DOWNLOAD) = true
  · rw [if_pos ht]
    cases hla : la c with
    | some nl => exact (update_job_info_findRow_ne _ c.id id _ _ (Ne.symm h)).trans hm
    | none => exact hm
  · rw [if_neg ht]
    exact hm

theorem mark_failed_now_next (s : State) (id : Nat) (mr : Int) :
    (s.mark_failed id mr).now = s.now ∧ (s.mark_failed id mr).next_id = s.next_id := by
  simp only [State.mark_failed]
  split
  · exact ⟨rfl, rfl⟩
  · exact ⟨rfl, rfl⟩

theorem reconcile_step_now_next (gs : String → String → BackendStatus) (mr : Int)
    (st : State) (c : Job) :
    (reconcile_step gs mr st c).now = st.now ∧
      (reconcile_step gs mr st c).next_id = st.next_id := by
  simp only [reconcile_step]
  by_cases h1 : ((gs c.type c.job_name).status == "FINISHED") = true
  · rw [if_pos h1]; exact ⟨rfl, rfl⟩
  · rw [if_neg h1]
    by_cases h2 : ((gs c.type c.job_name).status == "FAILED") = true
    · rw [if_pos h2]; exact mark_failed_now_next st c.id _
    · rw [if_neg h2]; exact ⟨rfl, rfl⟩

theorem dispatch_one_now_next (la : Job → Option (String × String))
    (st : State) (c : Job) :
    (dispatch_one la st c).now = st.now ∧ (dispatch_one la st c).next_id = st.next_id := by
  simp only [dispatch_one, handle_job]
  by_cases ht : (c.type == LIVE_CRAWL || c.type == WAYBACK_DOWNLOAD) = true
  · rw [if_pos ht]
    cases hla : la c with
    | some nl => exact ⟨rfl, rfl⟩
    | none => exact ⟨rfl, rfl⟩
  · rw [if_neg ht]
    exact ⟨rfl, rfl⟩

theorem mark_failed_ids (s : State) (id : Nat) (mr : Int) :
    (s.mark_failed id mr).jobs.map Job.id = s.jobs.map Job.id := by
  simp only [State.mark_failed]
  split
  · exact updateJob_ids s id _ (fun _ => rfl)
  · exact updateJob_ids s id _ (fun _ => rfl)

theorem reconcile_step_ids (gs : String → String → BackendStatus) (mr : Int)
    (st : State) (c : Job) :
    (reconcile_step gs mr st c).jobs.map Job.id = st.jobs.map Job.id := by
  simp only [reconcile_step]
  by_cases h1 : ((gs c.type c.job_name).status == "FINISHED") = true
  · rw [if_pos h1]; exact updateJob_ids st c.id _ (fun _ => rfl)
  · rw [if_neg h1]
    by_cases h2 : ((gs c.type c.job_name).status == "FAILED") = true
    · rw [if_pos h2]; exact mark_failed_ids st c.id _
    · rw [if_neg h2]

theorem dispatch_one_ids (la : Job → Option (String × String)) (st : State) (c : Job) :
    (dispatch_one la st c).jobs.map Job.id = st.jobs.map Job.id := by
  simp only [dispatch_one, handle_job]
  have hm : (st.mark_running c.id).jobs.map Job.id = st.jobs.map Job.id :=
    updateJob_ids st c.id _ (fun _ => rfl)
  by_cases ht : (c.type == LIVE_CRAWL || c.type == WAYBACK_DOWNLOAD) = true
  · rw [if_pos ht]
    cases hla : la c with
    | some nl =>
      show ((st.mark_running c.id).update_job_info c.id nl.1 nl.2).jobs.map Job.id
          = st.jobs.map Job.id
      exact (updateJob_ids (st.mark_running c.id) c.id
        (fun x => { x with job_name := nl.1, link := nl.2,
                           updated_at := (st.mark_running c.id).now })
        (fun _ => rfl)).trans hm
    | none => exact hm
  · rw [if_neg ht]
    exact hm

/-! ## How one reconcile pass rewrites a RUNNING row -/

theorem reconcile_step_findRow_self (gs : String → String → BackendStatus) (mr : Int)
    (st : State) (j : Job) (hrow : st.findRow j.id = some j) :
    (reconcile_step gs mr st j).findRow j.id = some (reconcile_row gs mr st.now j) := by
  simp only [reconcile_step, reconcile_row]
  by_cases h1 : ((gs j.type j.job_name).status == "FINISHED") = true
  · rw [if_pos h1, if_pos h1]
    simp only [State.mark_finished]
    rw [findRow_updateJob_self st j.id
      (fun x => { x with status := "FINISHED",
                         crawl_count := (gs j.type j.job_name).crawl_count,
                         last_crawl_file_count := (gs j.type j.job_name).file_count,
                         updated_at := st.now })
      (fun _ => rfl), hrow]
    rfl
  · rw [if_neg h1, if_neg h1]
    by_cases h2 : ((gs j.type j.job_name).status == "FAILED") = true
    · rw [if_pos h2, if_pos h2]
      simp only [State.mark_failed, hrow]
      by_cases hc :
          (if j.type == WAYBACK_DOWNLOAD then mr else 0) ≤ ((j.attempts + 1 : Nat) : Int)
      · rw [if_pos hc, if_pos hc]
        rw [findRow_updateJob_self st j.id
          (fun x => { x with attempts := j.attempts + 1, status := "FAILED",
                             updated_at := st.now })
          (fun _ => rfl), hrow]
        rfl
      · rw [if_neg hc, if_neg hc]
        rw [findRow_updateJob_self st j.id
          (fun x => { x with attempts := j.attempts + 1, status := "PENDING",
                             updated_at := st.now })
          (fun _ => rfl), hrow]
        rfl
    · rw [if_neg h2, if_neg h2]
      exact hrow

theorem mem_list_running {s : State} {j : Job} :
    j ∈ s.list_running_jobs ↔ j ∈ s.jobs ∧ j.status = "RUNNING" := by
  unfold State.list_running_jobs
  simp

theorem list_running_ids_nodup {s : State} (h : NodupIds s) :
    (s.list_running_jobs.map Job.id).Nodup :=
  List.Nodup.sublist ((List.filter_sublist s.jobs).map Job.id) h

/-- After one `_reconcile` pass, the row of a RUNNING job `j` is exactly
`reconcile_row` of the snapshot row. -/
theorem reconcile_findRow_running (gs : String → String → BackendStatus) (mr : Int)
    (s : State) (j : Job) (hnd : NodupIds s) (hj : j ∈ s.jobs)
    (hrun : j.status = "RUNNING") :
    (reconcile gs mr s).findRow j.id = some (reconcile_row gs mr s.now j) := by
  have hjr : j ∈ s.list_running_jobs := mem_list_running.mpr ⟨hj, hrun⟩
  obtain ⟨l1, l2, hsplit⟩ := List.append_of_mem hjr
  have hnodup : ((l1 ++ j :: l2).map Job.id).Nodup := by
    rw [← hsplit]; exact list_running_ids_nodup hnd
  rw [List.map_append] at hnodup
  have hdisj := List.disjoint_of_nodup_append hnodup
  have hl1 : ∀ c ∈ l1, c.id ≠ j.id := by
    intro c hc hceq
    exact hdisj (List.mem_map_of_mem Job.id hc) (by simp [hceq])
  have hl2 : ∀ c ∈ l2, c.id ≠ j.id := by
    have hr : (Job.id j :: l2.map Job.id).Nodup := (List.nodup_append.mp hnodup).2.1
    intro c hc hceq
    exact (List.nodup_cons.mp hr).1 (hceq ▸ List.mem_map_of_mem Job.id hc)
  unfold reconcile
  rw [hsplit, List.foldl_append, List.foldl_cons]
  have hrow1 : (l1.foldl (reconcile_step gs mr) s).findRow j.id = s.findRow j.id :=
    foldl_findRow_untouched _ j.id
      (fun st c hc => reconcile_step_findRow_ne gs mr st c j.id hc) l1 s hl1
  have hnow1 : (l1.foldl (reconcile_step gs mr) s).now = s.now :=
    (foldl_now_next_preserved _ (fun st c => reconcile_step_now_next gs mr st c) l1 s).1
  have hrowj : (l1.foldl (reconcile_step gs mr) s).findRow j.id = some j := by
    rw [hrow1]; exact findRow_of_mem_nodup hnd hj
  have hstep := reconcile_step_findRow_self gs mr (l1.foldl (reconcile_step gs mr) s) j hrowj
  rw [hnow1] at hstep
  refine Eq.trans ?_ hstep
  exact foldl_findRow_untouched _ j.id
    (fun st c hc => reconcile_step_findRow_ne gs mr st c j.id hc) l2 _ hl2

/-- A reconcile pass leaves the row of any job that is not RUNNING alone:
the pass only iterates over RUNNING rows. -/
theorem reconcile_findRow_not_running (gs : String → String → BackendStatus) (mr : Int)
    (s : State) (j : Job) (hnd : NodupIds s) (hj : j ∈ s.jobs)
    (hrun : j.status ≠ "RUNNING") :
    (reconcile gs mr s).findRow j.id = some j := by
  have huntouched : ∀ c ∈ s.list_running_jobs, c.id ≠ j.id := by
    intro c hc hceq
    obtain ⟨hcm, hcs⟩ := mem_list_running.mp hc
    have hcj : c = j := id_inj_of_nodup hnd hcm hj hceq
    exact hrun (hcj ▸ hcs)
  unfold reconcile
  exact (foldl_findRow_untouched _ j.id
      (fun st c hc => reconcile_step_findRow_ne gs mr st c j.id hc)
      s.list_running_jobs s huntouched).trans (findRow_of_mem_nodup hnd hj)

theorem reconcile_now_next (gs : String → String → BackendStatus) (mr : Int) (s : State) :
    (reconcile gs mr s).now = s.now ∧ (reconcile gs mr s).next_id = s.next_id :=
  foldl_now_next_preserved _ (fun st c => reconcile_step_now_next gs mr st c)
    s.list_running_jobs s

theorem reconcile_ids (gs : String → String → BackendStatus) (mr : Int) (s : State) :
    (reconcile gs mr s).jobs.map Job.id = s.jobs.map Job.id :=
  foldl_ids_preserved _ (fun st c => reconcile_step_ids gs mr st c) s.list_running_jobs s

/-! ## What one dispatch pass does to rows -/

theorem mark_running_proj (s : State) (id : Nat) :
    (s.mark_running id).jobs.map proj
      = (s.jobs.map proj).map
          (fun p => if p.1 == id then (p.1, p.2.1, "RUNNING") else p) := by
  show (s.jobs.map _).map proj = _
  rw [List.map_map, List.map_map]
  refine List.map_congr_left fun j _ => ?_
  by_cases h : j.id = id <;> simp [proj, h]

theorem handle_job_proj (la : Job → Option (String × String)) (s : State) (c : Job) :
    (handle_job la s c).jobs.map proj = s.jobs.map proj := by
  simp only [handle_job]
  by_cases ht : (c.type == LIVE_CRAWL || c.type == WAYBACK_DOWNLOAD) = true
  · rw [if_pos ht]
    cases hla : la c with
    | some nl =>
      show (s.update_job_info c.id nl.1 nl.2).jobs.map proj = _
      show (s.jobs.map _).map proj = _
      rw [List.map_map]
      refine List.map_congr_left fun j _ => ?_
      by_cases h : j.id = c.id <;> simp [proj, h]
    | none => rfl
  · rw [if_neg ht]

theorem dispatch_one_proj (la : Job → Option (String × String)) (s : State) (c : Job) :
    (dispatch_one la s c).jobs.map proj
      = (s.jobs.map proj).map
          (fun p => if p.1 == c.id then (p.1, p.2.1, "RUNNING") else p) := by
  unfold dispatch_one
  rw [handle_job_proj, mark_running_proj]

theorem markIds_fst (ids : List Nat) (p : Nat × String × String) :
    (markIds ids p).1 = p.1 := by
  unfold markIds
  by_cases h : p.1 ∈ ids <;> simp [h]

theorem dispatch_fold_proj (la : Job → Option (String × String)) :
    ∀ (cs : List Job) (s : State),
      (cs.foldl (dispatch_one la) s).jobs.map proj
        = (s.jobs.map proj).map (markIds (cs.map Job.id)) := by
  intro cs
  induction cs with
  | nil =>
    intro s
    simp [markIds]
  | cons c cs ih =>
    intro s
    rw [List.foldl_cons, ih (dispatch_one la s c), dispatch_one_proj, List.map_map,
        List.map_cons]
    refine List.map_congr_left fun p _ => ?_
    by_cases h : p.1 = c.id
    · by_cases h2 : p.1 ∈ cs.map Job.id <;>
        simp [markIds, h, h2, List.mem_cons]
    · by_cases h2 : p.1 ∈ cs.map Job.id <;>
        simp [markIds, h, h2, List.mem_cons]

theorem find?_proj (l : List Job) (id : Nat) :
    (l.map proj).find? (fun p => p.1 == id) = (l.find? fun j => j.id == id).map proj := by
  rw [List.find?_map]
  rfl

/-! ## Membership facts about fetch and the candidate list -/

theorem mem_fetch_next_pending {s : State} {t : String} {lim : Int} {j : Job}
    (h : j ∈ s.fetch_next_pending t lim) :
    j ∈ s.jobs ∧ j.status = "PENDING" ∧ j.type = t := by
  simp only [State.fetch_next_pending] at h
  have hs : j ∈ List.insertionSort jobLE
      (s.jobs.filter fun x => x.status == "PENDING" && x.type == t) := by
    by_cases hl : lim < 0
    · rw [if_pos hl] at h; exact h
    · rw [if_neg hl] at h; exact List.mem_of_mem_take h
  have hf : j ∈ s.jobs.filter fun x => x.status == "PENDING" && x.type == t :=
    (List.perm_insertionSort jobLE _).mem_iff.mp hs
  have := List.mem_filter.mp hf
  refine ⟨this.1, ?_, ?_⟩
  · have h2 := this.2
    simp only [Bool.and_eq_true, beq_iff_eq] at h2
    exact h2.1
  · have h2 := this.2
    simp only [Bool.and_eq_true, beq_iff_eq] at h2
    exact h2.2

theorem mem_live_candidates {s : State} {mpc : Int} {j : Job}
    (h : j ∈ live_candidates s mpc) :
    j ∈ s.jobs ∧ j.status = "PENDING" ∧ j.type = LIVE_CRAWL := by
  simp only [live_candidates] at h
  by_cases hcap : mpc - (s.count_running_jobs LIVE_CRAWL : Int) ≤ 0
  · rw [if_pos hcap] at h; simp at h
  · rw [if_neg hcap] at h
    exact mem_fetch_next_pending h

theorem mem_wb_candidates {s : State} {mpd : Int} {j : Job}
    (h : j ∈ wb_candidates s mpd) :
    j ∈ s.jobs ∧ j.status = "PENDING" ∧ j.type = WAYBACK_DOWNLOAD := by
  simp only [wb_candidates] at h
  by_cases hcap : mpd - (s.count_running_jobs WAYBACK_DOWNLOAD : Int) ≤ 0
  · rw [if_pos hcap] at h; simp at h
  · rw [if_neg hcap] at h
    exact mem_fetch_next_pending h

theorem mem_dispatch_candidates {s : State} {mpc mpd : Int} {j : Job}
    (h : j ∈ dispatch_candidates s mpc mpd) :
    j ∈ s.jobs ∧ j.status = "PENDING" ∧
      (j.type = LIVE_CRAWL ∨ j.type = WAYBACK_DOWNLOAD) := by
  rcases List.mem_append.mp h with h' | h'
  · obtain ⟨h1, h2, h3⟩ := mem_live_candidates h'
    exact ⟨h1, h2, Or.inl h3⟩
  · obtain ⟨h1, h2, h3⟩ := mem_wb_candidates h'
    exact ⟨h1, h2, Or.inr h3⟩

/-- Every candidate the tick claims ends the tick with status RUNNING. -/
theorem dispatch_rowStatus_of_cand (la : Job → Option (String × String))
    (mpc mpd : Int) (s : State) (j : Job)
    (hj : j ∈ dispatch_candidates s mpc mpd) :
    (dispatch la mpc mpd s).rowStatus j.id = some "RUNNING" := by
  have hmem : j ∈ s.jobs := (mem_dispatch_candidates hj).1
  have hid : j.id ∈ (dispatch_candidates s mpc mpd).map Job.id :=
    List.mem_map_of_mem Job.id hj
  have hsome : (s.jobs.find? fun x => x.id == j.id).isSome :=
    List.find?_isSome.mpr ⟨j, hmem, by simp⟩
  obtain ⟨x, hx⟩ := Option.isSome_iff_exists.mp hsome
  have hpx : x.id = j.id := by simpa using List.find?_some hx
  have hq : ((fun p : Nat × String × String => p.1 == j.id) ∘
      markIds ((dispatch_candidates s mpc mpd).map Job.id))
        = fun p : Nat × String × String => p.1 == j.id := by
    funext p
    simp [markIds_fst]
  have hchain : ((dispatch la mpc mpd s).jobs.map proj).find?
      (fun p => p.1 == j.id)
        = some (markIds ((dispatch_candidates s mpc mpd).map Job.id) (proj x)) := by
    show ((((dispatch_candidates s mpc mpd).foldl (dispatch_one la) s).jobs.map proj).find?
      (fun p => p.1 == j.id)) = _
    rw [dispatch_fold_proj, List.find?_map, hq, find?_proj]
    show (Option.map proj (s.jobs.find? fun x => x.id == j.id)).map _ = _
    rw [hx]
    rfl
  rw [find?_proj] at hchain
  obtain ⟨y, hy, hyp⟩ := Option.map_eq_some'.mp hchain
  show ((dispatch la mpc mpd s).jobs.find? fun x => x.id == j.id).map Job.status = _
  rw [hy]
  have hstat : y.status = (markIds ((dispatch_candidates s mpc mpd).map Job.id) (proj x)).2.2 := by
    rw [← hyp]; rfl
  rw [Option.map_some']
  rw [hstat]
  unfold markIds
  rw [if_pos (by show (proj x).1 ∈ _; rw [show (proj x).1 = x.id from rfl, hpx]; exact hid)]

/-! ## Counting RUNNING jobs through a tick -/

theorem count_running_proj (s : State) (t : String) :
    s.count_running_jobs t
      = (s.jobs.map proj).countP fun p => p.2.2 == "RUNNING" && p.2.1 == t := by
  rw [List.countP_map]
  rfl

theorem countP_markIds_le (t : String) (ids : List Nat)
    (P : List (Nat × String × String)) :
    (P.map (markIds ids)).countP (fun p => p.2.2 == "RUNNING" && p.2.1 == t)
      ≤ P.countP (fun p => p.2.2 == "RUNNING" && p.2.1 == t)
        + P.countP (fun p => decide (p.1 ∈ ids) && p.2.1 == t) := by
  induction P with
  | nil => simp
  | cons p P ih =>
    rw [List.map_cons, List.countP_cons, List.countP_cons, List.countP_cons,
        List.countP_map]
    rw [List.countP_map] at ih
    by_cases h : p.1 ∈ ids
    · have hm : markIds ids p = (p.1, p.2.1, "RUNNING") := by unfold markIds; rw [if_pos h]
      rw [hm]
      by_cases h2 : (p.2.1 == t) = true <;> by_cases h3 : (p.2.2 == "RUNNING") = true <;>
        simp [h, h2, h3] <;> omega
    · have hm : markIds ids p = p := by unfold markIds; rw [if_neg h]
      rw [hm]
      by_cases h2 : (p.2.2 == "RUNNING" && p.2.1 == t) = true <;> simp [h, h2] <;> omega

theorem countP_mem_le (l : List Nat) (ids : List Nat) (hl : l.Nodup) :
    l.countP (fun i => decide (i ∈ ids)) ≤ ids.length := by
  rw [List.countP_eq_length_filter]
  refine List.Subperm.length_le (List.subperm_of_subset (hl.filter _) ?_)
  intro a ha
  have := List.mem_filter.mp ha
  simpa using this.2

theorem count_running_updateJob_le (s : State) (id : Nat) (f : Job → Job) (t : String)
    (hf : ∀ j, (f j).status ≠ "RUNNING") :
    (s.updateJob id f).count_running_jobs t ≤ s.count_running_jobs t := by
  show (s.jobs.map _).countP _ ≤ s.jobs.countP _
  rw [List.countP_map]
  refine List.countP_mono_left fun a _ hp => ?_
  by_cases h : a.id = id
  · exfalso
    simp only [Function.comp, h, beq_self_eq_true, if_true, Bool.and_eq_true,
      beq_iff_eq] at hp
    exact hf a hp.1
  · simpa [Function.comp, h] using hp

theorem count_running_reconcile_step_le (gs : String → String → BackendStatus)
    (mr : Int) (st : State) (c : Job) (t : String) :
    (reconcile_step gs mr st c).count_running_jobs t ≤ st.count_running_jobs t := by
  simp only [reconcile_step]
  by_cases h1 : ((gs c.type c.job_name).status == "FINISHED") = true
  · rw [if_pos h1]
    refine count_running_updateJob_le st c.id _ t fun j => ?_
    simp
  · rw [if_neg h1]
    by_cases h2 : ((gs c.type c.job_name).status == "FAILED") = true
    · rw [if_pos h2]
      simp only [State.mark_failed]
      generalize ((match st.findRow c.id with | some j => j.attempts | none => 0) + 1 : Nat) = a
      by_cases hc : (if (c.type == WAYBACK_DOWNLOAD) = true then mr else 0) ≤ (a : Int)
      · rw [if_pos hc]
        refine count_running_updateJob_le st c.id _ t fun j => ?_
        simp
      · rw [if_neg hc]
        refine count_running_updateJob_le st c.id _ t fun j => ?_
        simp
    · rw [if_neg h2]

theorem foldl_count_running_le (step : State → Job → State) (t : String)
    (h : ∀ st c, (step st c).count_running_jobs t ≤ st.count_running_jobs t) :
    ∀ (l : List Job) (st : State),
      (l.foldl step st).count_running_jobs t ≤ st.count_running_jobs t := by
  intro l
  induction l with
  | nil => intro st; exact Nat.le_refl _
  | cons c cs ih =>
    intro st
    rw [List.foldl_cons]
    exact Nat.le_trans (ih (step st c)) (h st c)

/-- Reconciliation never increases the number of RUNNING jobs of any type. -/
theorem count_running_reconcile_le (gs : String → String → BackendStatus) (mr : Int)
    (s : State) (t : String) :
    (reconcile gs mr s).count_running_jobs t ≤ s.count_running_jobs t :=
  foldl_count_running_le _ t
    (fun st c => count_running_reconcile_step_le gs mr st c t) s.list_running_jobs s

/-- The candidate arm of a type never exceeds the spare capacity of that
type. -/
theorem length_live_candidates (s : State) (mpc : Int) :
    (live_candidates s mpc).length
      ≤ (mpc - (s.count_running_jobs LIVE_CRAWL : Int)).toNat := by
  simp only [live_candidates]
  by_cases hcap : mpc - (s.count_running_jobs LIVE_CRAWL : Int) ≤ 0
  · rw [if_pos hcap]; exact Nat.zero_le _
  · rw [if_neg hcap]
    simp only [State.fetch_next_pending]
    rw [if_neg (by omega)]
    exact (List.length_take _ _).le.trans (Nat.min_le_left _ _)

theorem length_wb_candidates (s : State) (mpd : Int) :
    (wb_candidates s mpd).length
      ≤ (mpd - (s.count_running_jobs WAYBACK_DOWNLOAD : Int)).toNat := by
  simp only [wb_candidates]
  by_cases hcap : mpd - (s.count_running_jobs WAYBACK_DOWNLOAD : Int) ≤ 0
  · rw [if_pos hcap]; exact Nat.zero_le _
  · rw [if_neg hcap]
    simp only [State.fetch_next_pending]
    rw [if_neg (by omega)]
    exact (List.length_take _ _).le.trans (Nat.min_le_left _ _)

theorem dispatch_ids (la : Job → Option (String × String)) (mpc mpd : Int) (s : State) :
    (dispatch la mpc mpd s).jobs.map Job.id = s.jobs.map Job.id := by
  unfold dispatch
  exact foldl_ids_preserved _ (fun st c => dispatch_one_ids la st c) _ s

theorem dispatch_now_next (la : Job → Option (String × String)) (mpc mpd : Int) (s : State) :
    (dispatch la mpc mpd s).now = s.now ∧ (dispatch la mpc mpd s).next_id = s.next_id := by
  unfold dispatch
  exact foldl_now_next_preserved _ (fun st c => dispatch_one_now_next la st c) _ s

theorem countP_ids_append_le (P : List (Nat × String × String)) (ids1 ids2 : List Nat)
    (t : String) :
    P.countP (fun p => decide (p.1 ∈ ids1 ++ ids2) && p.2.1 == t)
      ≤ P.countP (fun p => decide (p.1 ∈ ids1) && p.2.1 == t)
        + P.countP (fun p => decide (p.1 ∈ ids2) && p.2.1 == t) := by
  induction P with
  | nil => simp
  | cons p P ih =>
    rw [List.countP_cons, List.countP_cons, List.countP_cons]
    have hA : (if (decide (p.1 ∈ ids1 ++ ids2) && p.2.1 == t) = true then 1 else 0)
        ≤ (if (decide (p.1 ∈ ids1) && p.2.1 == t) = true then 1 else 0)
          + (if (decide (p.1 ∈ ids2) && p.2.1 == t) = true then 1 else 0) := by
      by_cases h1 : p.1 ∈ ids1 <;> by_cases h2 : p.1 ∈ ids2 <;>
        by_cases h3 : (p.2.1 == t) = true <;> simp [h1, h2, h3, List.mem_append]
    omega

theorem countP_ids_other_type_zero (s : State) (hnd : NodupIds s) (t : String)
    (cs : List Job) (hcs : ∀ c ∈ cs, c ∈ s.jobs ∧ c.type ≠ t) :
    (s.jobs.map proj).countP
      (fun p => decide (p.1 ∈ cs.map Job.id) && p.2.1 == t) = 0 := by
  rw [List.countP_map, List.countP_eq_zero]
  intro j hj hp
  simp only [Function.comp, proj, Bool.and_eq_true, decide_eq_true_eq, beq_iff_eq] at hp
  obtain ⟨hmem, hteq⟩ := hp
  obtain ⟨c, hc, hce⟩ := List.mem_map.mp hmem
  have hcj : c = j := id_inj_of_nodup hnd (hcs c hc).1 hj hce
  exact (hcs c hc).2 (by rw [hcj, hteq])

theorem countP_ids_le_length (s : State) (hnd : NodupIds s) (t : String) (cs : List Job) :
    (s.jobs.map proj).countP
      (fun p => decide (p.1 ∈ cs.map Job.id) && p.2.1 == t) ≤ cs.length := by
  have h1 : (s.jobs.map proj).countP
      (fun p => decide (p.1 ∈ cs.map Job.id) && p.2.1 == t)
        ≤ (s.jobs.map proj).countP (fun p => decide (p.1 ∈ cs.map Job.id)) :=
    List.countP_mono_left fun a _ h => by
      simp only [Bool.and_eq_true] at h
      exact h.1
  refine h1.trans ?_
  rw [List.countP_map]
  have h2 : s.jobs.countP ((fun p : Nat × String × String => decide (p.1 ∈ cs.map Job.id)) ∘ proj)
      = (s.jobs.map Job.id).countP (fun i => decide (i ∈ cs.map Job.id)) := by
    rw [List.countP_map]
    rfl
  rw [h2]
  exact (countP_mem_le _ _ hnd).trans (by rw [List.length_map])

/-- Within one tick, the RUNNING count of each type grows by at most the
length of that type's candidate arm. -/
theorem count_running_dispatch_live_le (la : Job → Option (String × String))
    (mpc mpd : Int) (s : State) (hnd : NodupIds s) :
    (dispatch la mpc mpd s).count_running_jobs LIVE_CRAWL
      ≤ s.count_running_jobs LIVE_CRAWL + (live_candidates s mpc).length := by
  rw [count_running_proj]
  have hproj : (dispatch la mpc mpd s).jobs.map proj
      = (s.jobs.map proj).map (markIds ((dispatch_candidates s mpc mpd).map Job.id)) := by
    unfold dispatch
    exact dispatch_fold_proj la _ s
  rw [hproj]
  refine (countP_markIds_le _ _ _).trans ?_
  rw [← count_running_proj]
  have hids : (dispatch_candidates s mpc mpd).map Job.id
      = (live_candidates s mpc).map Job.id ++ (wb_candidates s mpd).map Job.id := by
    unfold dispatch_candidates
    rw [List.map_append]
  rw [hids]
  refine Nat.add_le_add_left ?_ _
  refine (countP_ids_append_le _ _ _ _).trans ?_
  have hz : (s.jobs.map proj).countP
      (fun p => decide (p.1 ∈ (wb_candidates s mpd).map Job.id) && p.2.1 == LIVE_CRAWL)
        = 0 :=
    countP_ids_other_type_zero s hnd LIVE_CRAWL _ (fun c hc =>
      ⟨(mem_wb_candidates hc).1, by rw [(mem_wb_candidates hc).2.2]; decide⟩)
  rw [hz, Nat.add_zero]
  exact countP_ids_le_length s hnd LIVE_CRAWL _

theorem count_running_dispatch_wb_le (la : Job → Option (String × String))
    (mpc mpd : Int) (s : State) (hnd : NodupIds s) :
    (dispatch la mpc mpd s).count_running_jobs WAYBACK_DOWNLOAD
      ≤ s.count_running_jobs WAYBACK_DOWNLOAD + (wb_candidates s mpd).length := by
  rw [count_running_proj]
  have hproj : (dispatch la mpc mpd s).jobs.map proj
      = (s.jobs.map proj).map (markIds ((dispatch_candidates s mpc mpd).map Job.id)) := by
    unfold dispatch
    exact dispatch_fold_proj la _ s
  rw [hproj]
  refine (countP_markIds_le _ _ _).trans ?_
  rw [← count_running_proj]
  have hids : (dispatch_candidates s mpc mpd).map Job.id
      = (live_candidates s mpc).map Job.id ++ (wb_candidates s mpd).map Job.id := by
    unfold dispatch_candidates
    rw [List.map_append]
  rw [hids]
  refine Nat.add_le_add_left ?_ _
  refine (countP_ids_append_le _ _ _ _).trans ?_
  have hz : (s.jobs.map proj).countP
      (fun p => decide (p.1 ∈ (live_candidates s mpc).map Job.id) && p.2.1 == WAYBACK_DOWNLOAD)
        = 0 :=
    countP_ids_other_type_zero s hnd WAYBACK_DOWNLOAD _ (fun c hc =>
      ⟨(mem_live_candidates hc).1, by rw [(mem_live_candidates hc).2.2]; decide⟩)
  rw [hz, Nat.zero_add]
  exact countP_ids_le_length s hnd WAYBACK_DOWNLOAD _

/-! ## The capacity invariant along every run -/

theorem WF_of_ids_eq {s s' : State} (hw : WF s)
    (hids : s'.jobs.map Job.id = s.jobs.map Job.id) (hnext : s'.next_id = s.next_id) :
    WF s' := by
  constructor
  · show (s'.jobs.map Job.id).Nodup
    rw [hids]
    exact hw.1
  · intro j hj
    have hm : j.id ∈ s'.jobs.map Job.id := List.mem_map_of_mem Job.id hj
    rw [hids] at hm
    obtain ⟨x, hx, hxe⟩ := List.mem_map.mp hm
    rw [hnext, ← hxe]
    exact hw.2 x hx

theorem WF_enqueue (s : State) (jt url : String) (nca : Int) (vd : String) (pri : Int)
    (hw : WF s) : WF (s.enqueue_job_unique jt url nca vd pri).1 := by
  simp only [State.enqueue_job_unique]
  split
  · exact hw
  · constructor
    · show ((s.jobs ++ [_]).map Job.id).Nodup
      rw [List.map_append, List.nodup_append]
      refine ⟨hw.1, List.nodup_singleton _, ?_⟩
      intro a ha hb
      obtain ⟨x, hx, hxe⟩ := List.mem_map.mp ha
      have hlt := hw.2 x hx
      simp only [List.map_cons, List.map_nil, List.mem_singleton] at hb
      omega
    · intro j hj
      rcases List.mem_append.mp hj with h | h
      · exact Nat.lt_succ_of_lt (hw.2 j h)
      · simp only [List.mem_singleton] at h
        rw [h]
        exact Nat.lt_succ_self _

theorem count_running_enqueue (s : State) (jt url : String) (nca : Int) (vd : String)
    (pri : Int) (t : String) :
    ((s.enqueue_job_unique jt url nca vd pri).1).count_running_jobs t
      = s.count_running_jobs t := by
  simp only [State.enqueue_job_unique]
  split
  · rfl
  · show (s.jobs ++ [_]).countP _ = s.jobs.countP _
    rw [List.countP_append]
    simp

theorem tick_Inv_WF (gs : String → String → BackendStatus)
    (la : Job → Option (String × String)) (mpc mpd mr : Int) (s : State)
    (hw : WF s) (hinv : Inv mpc mpd s) :
    WF (tick gs la mpc mpd mr s) ∧ Inv mpc mpd (tick gs la mpc mpd mr s) := by
  have hw1 : WF (reconcile gs mr s) :=
    WF_of_ids_eq hw (reconcile_ids gs mr s) (reconcile_now_next gs mr s).2
  have hc1L := count_running_reconcile_le gs mr s LIVE_CRAWL
  have hc1W := count_running_reconcile_le gs mr s WAYBACK_DOWNLOAD
  constructor
  · exact WF_of_ids_eq hw1 (dispatch_ids la mpc mpd _) (dispatch_now_next la mpc mpd _).2
  · constructor
    · have hb := count_running_dispatch_live_le la mpc mpd (reconcile gs mr s) hw1.1
      have hl := length_live_candidates (reconcile gs mr s) mpc
      have hi := hinv.1
      show ((dispatch la mpc mpd (reconcile gs mr s)).count_running_jobs LIVE_CRAWL : Int)
        ≤ mpc
      omega
    · have hb := count_running_dispatch_wb_le la mpc mpd (reconcile gs mr s) hw1.1
      have hl := length_wb_candidates (reconcile gs mr s) mpd
      have hi := hinv.2
      show ((dispatch la mpc mpd (reconcile gs mr s)).count_running_jobs WAYBACK_DOWNLOAD : Int)
        ≤ mpd
      omega

theorem applyEvent_Inv_WF (mpc mpd : Int) (s : State) (e : Event)
    (hw : WF s) (hinv : Inv mpc mpd s) :
    WF (applyEvent mpc mpd s e) ∧ Inv mpc mpd (applyEvent mpc mpd s e) := by
  cases e with
  | enqueue jt url nca vd pri =>
    refine ⟨WF_enqueue s jt url nca vd pri hw, ?_, ?_⟩
    · show (((s.enqueue_job_unique jt url nca vd pri).1).count_running_jobs LIVE_CRAWL : Int)
        ≤ mpc
      rw [count_running_enqueue]
      exact hinv.1
    · show (((s.enqueue_job_unique jt url nca vd pri).1).count_running_jobs WAYBACK_DOWNLOAD : Int)
        ≤ mpd
      rw [count_running_enqueue]
      exact hinv.2
  | tick gs la mr => exact tick_Inv_WF gs la mpc mpd mr s hw hinv

theorem runFrom_Inv_WF (mpc mpd : Int) :
    ∀ (es : List Event) (s : State), WF s → Inv mpc mpd s →
      WF (runFrom mpc mpd s es) ∧ Inv mpc mpd (runFrom mpc mpd s es) := by
  intro es
  induction es with
  | nil => intro s hw hinv; exact ⟨hw, hinv⟩
  | cons e es ih =>
    intro s hw hinv
    obtain ⟨hw1, hinv1⟩ := applyEvent_Inv_WF mpc mpd s e hw hinv
    exact ih (applyEvent mpc mpd s e) hw1 hinv1

theorem WF_init : WF State.init := by
  constructor
  · exact List.nodup_nil
  · intro j hj
    cases hj

/-! ## Row lemmas for the draft worker model -/

theorem find?_updateById_self {α : Type} (idOf : α → Nat) (l : List α) (id : Nat)
    (f : α → α) (hf : ∀ j, idOf (f j) = idOf j) :
    (l.map fun j => if idOf j == id then f j else j).find? (fun j => idOf j == id)
      = (l.find? fun j => idOf j == id).map f := by
  induction l with
  | nil => rfl
  | cons j js ih =>
    by_cases h : idOf j = id
    · rw [List.map_cons,
          List.find?_cons_of_pos _ (by simp [h, hf]),
          List.find?_cons_of_pos _ (by simp [h])]
      simp [h]
    · rw [List.map_cons,
          List.find?_cons_of_neg _ (by simp [h]),
          List.find?_cons_of_neg _ (by simp [h]), ih]

theorem find?_updateById_ne {α : Type} (idOf : α → Nat) (l : List α) (id id' : Nat)
    (f : α → α) (h : id' ≠ id) (hf : ∀ j, idOf (f j) = idOf j) :
    (l.map fun j => if idOf j == id then f j else j).find? (fun j => idOf j == id')
      = l.find? (fun j => idOf j == id') := by
  induction l with
  | nil => rfl
  | cons j js ih =>
    by_cases hj : idOf j = id
    · have hne : ¬ idOf j = id' := by rw [hj]; exact fun hc => h hc.symm
      rw [List.map_cons,
          List.find?_cons_of_neg _ (by simp [hj, hf, Ne.symm h]),
          List.find?_cons_of_neg _ (by simp [hne]), ih]
    · by_cases hj' : idOf j = id'
      · rw [List.map_cons,
            List.find?_cons_of_pos _ (by simp [hj, hj', h]),
            List.find?_cons_of_pos _ (by simp [hj'])]
        simp [hj]
      · rw [List.map_cons,
            List.find?_cons_of_neg _ (by simp [hj, hj']),
            List.find?_cons_of_neg _ (by simp [hj']), ih]

theorem dmark_succeeded_findRow_self (s : DraftState) (id : Nat) :
    (s.mark_succeeded id).findRow id
      = (s.findRow id).map (fun j => { j with status := "SUCCEEDED" }) :=
  find?_updateById_self DraftJob.id s.jobs id _ (fun _ => rfl)

theorem dmark_succeeded_findRow_ne (s : DraftState) (id id' : Nat) (h : id' ≠ id) :
    (s.mark_succeeded id).findRow id' = s.findRow id' :=
  find?_updateById_ne DraftJob.id s.jobs id id' _ h (fun _ => rfl)

theorem draft_reconcile_step_findRow_ne (gs : String → String) (st : DraftState)
    (c : DraftJob) (id : Nat) (h : c.id ≠ id) :
    (draft_reconcile_step gs st c).findRow id = st.findRow id := by
  simp only [draft_reconcile_step]
  by_cases h1 : c.job_names.isEmpty = true
  · rw [if_pos h1]
    exact dmark_succeeded_findRow_ne st c.id id (Ne.symm h)
  · rw [if_neg h1]
    by_cases h2 : (c.job_names.all
        (fun n => !(gs n == "RUNNING") && !(gs n == "UNBUILT"))) = true
    · rw [if_pos h2]
      exact dmark_succeeded_findRow_ne st c.id id (Ne.symm h)
    · rw [if_neg h2]

theorem draft_foldl_findRow_untouched (step : DraftState → DraftJob → DraftState)
    (id : Nat) (hstep : ∀ st c, c.id ≠ id → (step st c).findRow id = st.findRow id) :
    ∀ (l : List DraftJob) (st : DraftState), (∀ c ∈ l, c.id ≠ id) →
      (l.foldl step st).findRow id = st.findRow id := by
  intro l
  induction l with
  | nil => intro st _; rfl
  | cons c cs ih =>
    intro st hl
    have h1 : c.id ≠ id := hl c (by simp)
    have h2 : ∀ x ∈ cs, x.id ≠ id := fun x hx => hl x (by simp [hx])
    simp only [List.foldl_cons]
    rw [ih (step st c) h2, hstep st c h1]

theorem draft_id_inj {s : DraftState} (h : (s.jobs.map DraftJob.id).Nodup)
    {a b : DraftJob} (ha : a ∈ s.jobs) (hb : b ∈ s.jobs) (hab : a.id = b.id) : a = b :=
  List.inj_on_of_nodup_map h ha hb hab

theorem draft_findRow_of_mem {s : DraftState} (h : (s.jobs.map DraftJob.id).Nodup)
    {j : DraftJob} (hj : j ∈ s.jobs) : s.findRow j.id = some j := by
  have hs : (s.jobs.find? fun x => x.id == j.id).isSome :=
    List.find?_isSome.mpr ⟨j, hj, by simp⟩
  obtain ⟨x, hx⟩ := Option.isSome_iff_exists.mp hs
  have hpx : x.id = j.id := by simpa using List.find?_some hx
  have hxj : x = j := draft_id_inj h (List.mem_of_find?_eq_some hx) hj hpx
  show s.jobs.find? (fun x => x.id == j.id) = some j
  rw [hx, hxj]

theorem draft_mem_list_running {s : DraftState} {j : DraftJob} :
    j ∈ s.list_running_jobs ↔ j ∈ s.jobs ∧ j.status = "RUNNING" := by
  unfold DraftState.list_running_jobs
  simp

/-! ## Persistence of a FAILED row along any further events -/

theorem WF_applyEvent (mpc mpd : Int) (s : State) (e : Event) (hw : WF s) :
    WF (applyEvent mpc mpd s e) := by
  cases e with
  | enqueue jt url nca vd pri => exact WF_enqueue s jt url nca vd pri hw
  | tick gs la mr =>
    have hw1 : WF (reconcile gs mr s) :=
      WF_of_ids_eq hw (reconcile_ids gs mr s) (reconcile_now_next gs mr s).2
    exact WF_of_ids_eq hw1 (dispatch_ids la mpc mpd _) (dispatch_now_next la mpc mpd _).2

theorem rowStatus_eq_some_elim {s : State} {id : Nat} {v : String}
    (h : s.rowStatus id = some v) :
    ∃ j, s.findRow id = some j ∧ j.status = v := by
  unfold State.rowStatus at h
  cases hf : s.findRow id with
  | none => rw [hf] at h; cases h
  | some j =>
    rw [hf] at h
    exact ⟨j, rfl, by simpa using h⟩

theorem findRow_enqueue_of_some (s : State) (jt url : String) (nca : Int) (vd : String)
    (pri : Int) (id : Nat) (j : Job) (h : s.findRow id = some j) :
    ((s.enqueue_job_unique jt url nca vd pri).1).findRow id = some j := by
  simp only [State.enqueue_job_unique]
  split
  · exact h
  · show (s.jobs ++ [_]).find? _ = some j
    have h' : s.jobs.find? (fun x => x.id == id) = some j := h
    rw [List.find?_append, h']
    rfl

/-- A FAILED row is never touched again: reconciliation only addresses
RUNNING rows and dispatch only addresses PENDING candidates. -/
theorem rowStatus_failed_applyEvent (mpc mpd : Int) (s : State) (e : Event) (id : Nat)
    (hw : WF s) (hst : s.rowStatus id = some "FAILED") :
    (applyEvent mpc mpd s e).rowStatus id = some "FAILED" := by
  obtain ⟨j, hfind, hjst⟩ := rowStatus_eq_some_elim hst
  cases e with
  | enqueue jt url nca vd pri =>
    show (((s.enqueue_job_unique jt url nca vd pri).1).findRow id).map Job.status = _
    rw [findRow_enqueue_of_some s jt url nca vd pri id j hfind, Option.map_some', hjst]
  | tick gs la mr =>
    have hjm : j ∈ s.jobs := List.mem_of_find?_eq_some hfind
    have hjid : s.findRow j.id = some j := findRow_of_mem_nodup hw.1 hjm
    have hid : j.id = id := by
      have := List.find?_some hfind
      simpa using this
    have hrec : (reconcile gs mr s).findRow j.id = some j :=
      reconcile_findRow_not_running gs mr s j hw.1 hjm (by rw [hjst]; decide)
    have hw1 : WF (reconcile gs mr s) :=
      WF_of_ids_eq hw (reconcile_ids gs mr s) (reconcile_now_next gs mr s).2
    have hjm1 : j ∈ (reconcile gs mr s).jobs := List.mem_of_find?_eq_some hrec
    have hcands : ∀ c ∈ dispatch_candidates (reconcile gs mr s) mpc mpd, c.id ≠ j.id := by
      intro c hc hceq
      obtain ⟨hcm, hcp, _⟩ := mem_dispatch_candidates hc
      have hcj : c = j := id_inj_of_nodup hw1.1 hcm hjm1 hceq
      rw [hcj, hjst] at hcp
      exact absurd hcp (by decide)
    have hdisp : (dispatch la mpc mpd (reconcile gs mr s)).findRow j.id
        = (reconcile gs mr s).findRow j.id := by
      unfold dispatch
      exact foldl_findRow_untouched _ j.id
        (fun st c hc => dispatch_one_findRow_ne la st c j.id hc) _ _ hcands
    show ((tick gs la mpc mpd mr s).findRow id).map Job.status = _
    rw [← hid]
    show ((dispatch la mpc mpd (reconcile gs mr s)).findRow j.id).map Job.status = _
    rw [hdisp, hrec, Option.map_some', hjst]

theorem rowStatus_failed_runFrom (mpc mpd : Int) :
    ∀ (es : List Event) (s : State) (id : Nat), WF s → s.rowStatus id = some "FAILED" →
      (runFrom mpc mpd s es).rowStatus id = some "FAILED" := by
  intro es
  induction es with
  | nil => intro s id _ h; exact h
  | cons e es ih =>
    intro s id hw h
    exact ih (applyEvent mpc mpd s e) id (WF_applyEvent mpc mpd s e hw)
      (rowStatus_failed_applyEvent mpc mpd s e id hw h)

/-! # Claim theorems -/

theorem isPendingFor_eq_true {jt url : String} {j : Job} :
    isPendingFor jt url j = true ↔ j.type = jt ∧ j.url = url ∧ j.status = "PENDING" := by
  unfold isPendingFor
  simp [and_assoc]

/-- C1: for a (type, target_key) pair with no PENDING job in the store,
`enqueue_job_unique` inserts exactly one new PENDING row and returns its job
id; a second call for the same pair made before that job leaves PENDING
inserts nothing and returns None, so exactly one PENDING row exists for the
pair afterwards. -/
theorem C1_enqueue_unique_dedup (s : State) (jt url : String) (nca : Int) (vd : String)
    (pri : Int)
    (h : ∀ j ∈ s.jobs, ¬ (j.type = jt ∧ j.url = url ∧ j.status = "PENDING")) :
    (s.enqueue_job_unique jt url nca vd pri).2 = some s.next_id ∧
    (∃ nj : Job, (s.enqueue_job_unique jt url nca vd pri).1.jobs = s.jobs ++ [nj] ∧
      nj.id = s.next_id ∧ nj.type = jt ∧ nj.url = url ∧ nj.status = "PENDING") ∧
    (((s.enqueue_job_unique jt url nca vd pri).1).enqueue_job_unique jt url nca vd pri).2
      = none ∧
    (((s.enqueue_job_unique jt url nca vd pri).1).enqueue_job_unique jt url nca vd pri).1
      = (s.enqueue_job_unique jt url nca vd pri).1 ∧
    (((s.enqueue_job_unique jt url nca vd pri).1).enqueue_job_unique jt url nca vd
        pri).1.jobs.countP (isPendingFor jt url) = 1 := by
  have hany : ¬ (s.jobs.any (isPendingFor jt url) = true) := by
    rw [List.any_eq_true]
    rintro ⟨x, hx, hp⟩
    exact h x hx (isPendingFor_eq_true.mp hp)
  have e1 : s.enqueue_job_unique jt url nca vd pri
      = (({ jobs := s.jobs ++ [enqueuedJob s jt url nca vd pri],
            next_id := s.next_id + 1, now := s.now + 1 } : State), some s.next_id) := by
    simp only [State.enqueue_job_unique]
    rw [if_neg hany]
    rfl
  rw [e1]
  have hany2 : ((s.jobs ++ [enqueuedJob s jt url nca vd pri]).any
      (isPendingFor jt url)) = true :=
    List.any_eq_true.mpr ⟨enqueuedJob s jt url nca vd pri, by simp,
      isPendingFor_eq_true.mpr ⟨rfl, rfl, rfl⟩⟩
  have hzero : s.jobs.countP (isPendingFor jt url) = 0 :=
    List.countP_eq_zero.mpr fun x hx hp => h x hx (isPendingFor_eq_true.mp hp)
  refine ⟨rfl, ⟨_, rfl, rfl, rfl, rfl, rfl⟩, ?_, ?_, ?_⟩
  · show (State.enqueue_job_unique _ jt url nca vd pri).2 = none
    simp only [State.enqueue_job_unique]
    rw [if_pos hany2]
  · show (State.enqueue_job_unique _ jt url nca vd pri).1 = _
    simp only [State.enqueue_job_unique]
    rw [if_pos hany2]
  · show (State.enqueue_job_unique _ jt url nca vd pri).1.jobs.countP _ = 1
    simp only [State.enqueue_job_unique]
    rw [if_pos hany2]
    show (s.jobs ++ [_]).countP _ = 1
    rw [List.countP_append, hzero]
    simp [List.countP_cons, isPendingFor, enqueuedJob]

theorem C1_enqueue_unique_dedup_witness :
    (State.init.enqueue_job_unique "LIVE_CRAWL" "https://evil.example/" 1
      "2025-01-01" 100).2 = some 1 :=
  (C1_enqueue_unique_dedup State.init "LIVE_CRAWL" "https://evil.example/" 1
    "2025-01-01" 100 (fun j hj => absurd hj (by simp [State.init]))).1

/-- C2 (counterexample): from the empty store, enqueueing the same url under
both job types and running one worker iteration with one slot per type leaves
two RUNNING jobs for the same target_key, so the claimed per-target
mutual-exclusion invariant fails on a reachable state — the dispatcher has no
is_target_active check. -/
theorem C2_counterexample :
    c2_state.jobs.countP
      (fun j => j.status == "RUNNING" && j.url == "https://evil.example/") = 2 ∧
    ¬ atMostOneRunningPerTarget c2_state := by
  have hc : c2_state.jobs.countP
      (fun j => j.status == "RUNNING" && j.url == "https://evil.example/") = 2 := by
    decide
  refine ⟨hc, fun hall => ?_⟩
  have h2 := hall "https://evil.example/"
  omega

/-- C2 (amended): the dispatcher performs no per-target exclusion: every
candidate fetched in a tick is marked RUNNING even when another RUNNING job
already exists for its target_key, so multiple RUNNING jobs may share a
target_key. -/
theorem C2_amended_no_target_exclusion (la : Job → Option (String × String))
    (mpc mpd : Int) (s : State) (j : Job)
    (hj : j ∈ dispatch_candidates s mpc mpd)
    (hactive : spec_is_target_active s j.url = true) :
    (dispatch la mpc mpd s).rowStatus j.id = some "RUNNING" :=
  dispatch_rowStatus_of_cand la mpc mpd s j hj

theorem C2_amended_no_target_exclusion_witness :
    (dispatch (fun _ => none) 1 1 c2w_state).rowStatus c2w_job.id = some "RUNNING" :=
  C2_amended_no_target_exclusion (fun _ => none) 1 1 c2w_state c2w_job
    (by decide) (by decide)

/-- C3 (counterexample): the jobs table of src/crawler/state.py has no
finished_at, last_error or started_at column at all, so `mark_failed` cannot
set FAILED "with finished_at set" nor record `last_error` (its signature also
takes no error argument). -/
theorem C3_counterexample :
    ¬ ("finished_at" ∈ jobs_table_columns) ∧
    ¬ ("last_error" ∈ jobs_table_columns) ∧
    ¬ ("started_at" ∈ jobs_table_columns) := by
  decide

/-- C3 (amended): `mark_failed` increments attempts by exactly one and sets
status FAILED when the incremented attempts reach max_retries, else resets
the job to PENDING (timestamping updated_at; no last_error, finished_at or
started_at fields exist); and a FAILED row stays FAILED along any further
events — reconciliation only touches RUNNING rows and dispatch only claims
PENDING candidates, so it is never re-dispatched. -/
theorem C3_amended_mark_failed_retry :
    (∀ (s : State) (id : Nat) (j : Job) (mr : Int), s.findRow id = some j →
      (s.mark_failed id mr).findRow id
        = some { j with attempts := j.attempts + 1,
                        status := if mr ≤ ((j.attempts + 1 : Nat) : Int)
                                  then "FAILED" else "PENDING",
                        updated_at := s.now }) ∧
    (∀ (s : State) (id : Nat), WF s → s.rowStatus id = some "FAILED" →
      ∀ (mpc mpd : Int) (es : List Event),
        (runFrom mpc mpd s es).rowStatus id = some "FAILED") := by
  constructor
  · intro s id j mr hrow
    simp only [State.mark_failed, hrow]
    by_cases hc : mr ≤ ((j.attempts + 1 : Nat) : Int)
    · rw [if_pos hc,
          findRow_updateJob_self s id
            (fun x => { x with attempts := j.attempts + 1, status := "FAILED",
                               updated_at := s.now }) (fun _ => rfl),
          hrow, if_pos hc]
      rfl
    · rw [if_neg hc,
          findRow_updateJob_self s id
            (fun x => { x with attempts := j.attempts + 1, status := "PENDING",
                               updated_at := s.now }) (fun _ => rfl),
          hrow, if_neg hc]
      rfl
  · intro s id hw hst mpc mpd es
    exact rowStatus_failed_runFrom mpc mpd es s id hw hst

theorem C3_amended_mark_failed_retry_witness :
    (c3_state.mark_failed 1 3).findRow 1
      = some { (sampleJob 1 LIVE_CRAWL "https://evil.example/" "FAILED" 0) with
               attempts := 1,
               status := if (3 : Int) ≤ ((0 + 1 : Nat) : Int) then "FAILED" else "PENDING",
               updated_at := 1 } ∧
    (runFrom 1 1 c3_state
        [Event.tick (fun _ _ => { status := "RUNNING", crawl_count := 0, file_count := 0 })
          (fun _ => none) 3]).rowStatus 1 = some "FAILED" :=
  ⟨C3_amended_mark_failed_retry.1 c3_state 1
      (sampleJob 1 LIVE_CRAWL "https://evil.example/" "FAILED" 0) 3 (by decide),
   C3_amended_mark_failed_retry.2 c3_state 1
     ⟨by unfold NodupIds; decide, by decide⟩ (by decide) 1 1 _⟩

/-- C4: along every run of the system from a fresh database, the number of
RUNNING jobs of each type never exceeds max_parallel of that type; and in any
state the candidate arm of a type is bounded by the spare capacity
max_parallel[type] - count_running(type), with no candidates at all when that
capacity is not positive. -/
theorem C4_capacity_invariant (mpc mpd : Int) (hc : 0 ≤ mpc) (hd : 0 ≤ mpd) :
    (∀ es : List Event, Inv mpc mpd (run mpc mpd es)) ∧
    (∀ s : State,
      (live_candidates s mpc).length
          ≤ (mpc - (s.count_running_jobs LIVE_CRAWL : Int)).toNat ∧
      (mpc - (s.count_running_jobs LIVE_CRAWL : Int) ≤ 0 →
        live_candidates s mpc = [])) ∧
    (∀ s : State,
      (wb_candidates s mpd).length
          ≤ (mpd - (s.count_running_jobs WAYBACK_DOWNLOAD : Int)).toNat ∧
      (mpd - (s.count_running_jobs WAYBACK_DOWNLOAD : Int) ≤ 0 →
        wb_candidates s mpd = [])) := by
  refine ⟨?_, ?_, ?_⟩
  · intro es
    have hinv0 : Inv mpc mpd State.init := by
      constructor
      · show ((List.countP _ ([] : List Job) : Nat) : Int) ≤ mpc
        simpa using hc
      · show ((List.countP _ ([] : List Job) : Nat) : Int) ≤ mpd
        simpa using hd
    exact (runFrom_Inv_WF mpc mpd es State.init WF_init hinv0).2
  · intro s
    refine ⟨length_live_candidates s mpc, fun hcap => ?_⟩
    simp only [live_candidates]
    rw [if_pos hcap]
  · intro s
    refine ⟨length_wb_candidates s mpd, fun hcap => ?_⟩
    simp only [wb_candidates]
    rw [if_pos hcap]

theorem C4_capacity_invariant_witness :
    Inv 1 1 (run 1 1 c2_events) :=
  (C4_capacity_invariant 1 1 (by decide) (by decide)).1 c2_events

/-- C5: in src/crawler/jobqueue.py a raising adapter launch is only logged:
after one worker iteration whose launch raises, the claimed job is still
RUNNING with attempts untouched — `mark_failed` is never invoked, so the
launch failure is a silent no-op rather than a failed attempt (the job can
never be reconciled either, as no backend handle was recorded). -/
theorem C5_launch_failure_leaves_running :
    c5_state.rowStatus 1 = some "RUNNING" ∧
    c5_state.rowAttempts 1 = some 0 ∧
    ¬ (c5_state.rowStatus 1 = some "FAILED") ∧
    ¬ (c5_state.rowStatus 1 = some "PENDING") := by
  refine ⟨by decide, by decide, by decide, by decide⟩

/-- C6 (counterexample): the draft reconciler (src/jobqueue.py) marks a
RUNNING job with no recorded backend handle SUCCEEDED, not FAILED. -/
theorem C6_counterexample :
    (draft_reconcile (fun _ => "FINISHED") c6_state).rowStatus 1 = some "SUCCEEDED" ∧
    ¬ ((draft_reconcile (fun _ => "FINISHED") c6_state).rowStatus 1 = some "FAILED") := by
  refine ⟨by decide, by decide⟩

/-- C6 (amended): in the draft reconciler, every RUNNING job whose payload
records no backend job names is marked SUCCEEDED by one reconcile pass
("no way to reconcile, assume success"); it is never marked FAILED on those
grounds.  (The current reconciler in src/crawler/jobqueue.py has no
missing-handle case at all: it polls the adapter with whatever handle is
stored.) -/
theorem C6_amended_handleless_succeeds (gs : String → String) (s : DraftState)
    (j : DraftJob) (hnd : (s.jobs.map DraftJob.id).Nodup) (hj : j ∈ s.jobs)
    (hrun : j.status = "RUNNING") (hempty : j.job_names = []) :
    (draft_reconcile gs s).rowStatus j.id = some "SUCCEEDED" := by
  have hjr : j ∈ s.list_running_jobs := draft_mem_list_running.mpr ⟨hj, hrun⟩
  obtain ⟨l1, l2, hsplit⟩ := List.append_of_mem hjr
  have hnodup : ((l1 ++ j :: l2).map DraftJob.id).Nodup := by
    rw [← hsplit]
    exact List.Nodup.sublist ((List.filter_sublist s.jobs).map DraftJob.id) hnd
  rw [List.map_append] at hnodup
  have hdisj := List.disjoint_of_nodup_append hnodup
  have hl1 : ∀ c ∈ l1, c.id ≠ j.id := by
    intro c hc hceq
    exact hdisj (List.mem_map_of_mem DraftJob.id hc) (by simp [hceq])
  have hl2 : ∀ c ∈ l2, c.id ≠ j.id := by
    have hr : (DraftJob.id j :: l2.map DraftJob.id).Nodup := (List.nodup_append.mp hnodup).2.1
    intro c hc hceq
    exact (List.nodup_cons.mp hr).1 (hceq ▸ List.mem_map_of_mem DraftJob.id hc)
  unfold draft_reconcile
  rw [hsplit, List.foldl_append, List.foldl_cons]
  have hrow1 : (l1.foldl (draft_reconcile_step gs) s).findRow j.id = s.findRow j.id :=
    draft_foldl_findRow_untouched _ j.id
      (fun st c hc => draft_reconcile_step_findRow_ne gs st c j.id hc) l1 s hl1
  have hrowj : (l1.foldl (draft_reconcile_step gs) s).findRow j.id = some j := by
    rw [hrow1]
    exact draft_findRow_of_mem hnd hj
  have hstep : (draft_reconcile_step gs (l1.foldl (draft_reconcile_step gs) s) j).findRow j.id
      = some { j with status := "SUCCEEDED" } := by
    simp only [draft_reconcile_step]
    rw [if_pos (by rw [hempty]; rfl), dmark_succeeded_findRow_self, hrowj]
    rfl
  have hrest : (l2.foldl (draft_reconcile_step gs)
      (draft_reconcile_step gs (l1.foldl (draft_reconcile_step gs) s) j)).findRow j.id
        = some { j with status := "SUCCEEDED" } := by
    rw [draft_foldl_findRow_untouched _ j.id
      (fun st c hc => draft_reconcile_step_findRow_ne gs st c j.id hc) l2 _ hl2, hstep]
  show ((l2.foldl (draft_reconcile_step gs)
      (draft_reconcile_step gs (l1.foldl (draft_reconcile_step gs) s) j)).findRow j.id).map
        DraftJob.status = some "SUCCEEDED"
  rw [hrest]
  rfl

theorem C6_amended_handleless_succeeds_witness :
    (draft_reconcile (fun _ => "RUNNING") c6_state).rowStatus 1 = some "SUCCEEDED" :=
  C6_amended_handleless_succeeds (fun _ => "RUNNING") c6_state
    { id := 1, type := "LIVE_CREATE", domain := "evil.example",
      job_names := [], status := "RUNNING" }
    (by decide) (by decide) (by decide) (by decide)

/-- C7: one reconciliation pass maps the canonical backend status of a
RUNNING job as follows: FINISHED finishes the job (the code's
`mark_finished`, the spec's mark_succeeded) recording the reported metrics;
FAILED routes through `mark_failed` with the configured max_retries for
WAYBACK_DOWNLOAD and 0 otherwise; RUNNING and any unknown status leave the
row entirely unchanged (never marked a success on ambiguity); and rows in a
terminal state are not touched at all. -/
theorem C7_reconcile_status_mapping (gs : String → String → BackendStatus) (mr : Int)
    (s : State) (j : Job) (hnd : NodupIds s) (hj : j ∈ s.jobs) :
    (j.status = "RUNNING" →
      ((gs j.type j.job_name).status = "FINISHED" →
        (reconcile gs mr s).findRow j.id
          = some { j with status := "FINISHED",
                          crawl_count := (gs j.type j.job_name).crawl_count,
                          last_crawl_file_count := (gs j.type j.job_name).file_count,
                          updated_at := s.now }) ∧
      ((gs j.type j.job_name).status = "FAILED" →
        (reconcile gs mr s).findRow j.id
          = some { j with attempts := j.attempts + 1,
                          status := if (if j.type == WAYBACK_DOWNLOAD then mr else 0)
                                      ≤ ((j.attempts + 1 : Nat) : Int)
                                    then "FAILED" else "PENDING",
                          updated_at := s.now }) ∧
      ((gs j.type j.job_name).status ≠ "FINISHED" →
        (gs j.type j.job_name).status ≠ "FAILED" →
        (reconcile gs mr s).findRow j.id = some j)) ∧
    (j.status ≠ "RUNNING" → (reconcile gs mr s).findRow j.id = some j) := by
  constructor
  · intro hrun
    have hrr := reconcile_findRow_running gs mr s j hnd hj hrun
    refine ⟨?_, ?_, ?_⟩
    · intro hf
      rw [hrr]
      simp only [reconcile_row]
      rw [if_pos (by simp [hf])]
    · intro hf
      rw [hrr]
      simp only [reconcile_row]
      rw [if_neg (by simp [hf]), if_pos (by simp [hf])]
      by_cases hcc : (if j.type == WAYBACK_DOWNLOAD then mr else 0)
          ≤ ((j.attempts + 1 : Nat) : Int)
      · rw [if_pos hcc, if_pos hcc]
      · rw [if_neg hcc, if_neg hcc]
    · intro hnf hnfa
      rw [hrr]
      simp only [reconcile_row]
      rw [if_neg (by simp [hnf]), if_neg (by simp [hnfa])]
  · intro hterm
    exact reconcile_findRow_not_running gs mr s j hnd hj hterm

theorem C7_reconcile_status_mapping_witness :
    (reconcile (fun _ _ => { status := "FINISHED", crawl_count := 4, file_count := 9 })
        3 c7_state).findRow 1
      = some { c7_job with
               status := "FINISHED", crawl_count := 4,
               last_crawl_file_count := 9, updated_at := 5 } :=
  ((C7_reconcile_status_mapping
      (fun _ _ => { status := "FINISHED", crawl_count := 4, file_count := 9 })
      3 c7_state c7_job (by unfold NodupIds; decide) (by decide)).1 (by decide)).1 (by decide)

/-- C8 (counterexample): claiming a job whose type is outside the closed set
(the loop body of run_forever: mark_running then _handle_job) leaves it
RUNNING; it is not marked SKIPPED — src/crawler has no SKIPPED status and no
mark_skipped at all, its _handle_job just logs and returns. -/
theorem C8_counterexample :
    (dispatch_one (fun _ => some ("h", "l")) c8_state c8_job).rowStatus 1
      = some "RUNNING" ∧
    ¬ ((dispatch_one (fun _ => some ("h", "l")) c8_state c8_job).rowStatus 1
      = some "SKIPPED") := by
  refine ⟨by decide, by decide⟩

/-- C8 (amended): a claimed job of unknown type is only marked RUNNING — the
unknown-type branch of _handle_job changes nothing in the store, so the job
stays RUNNING rather than becoming terminal SKIPPED; moreover the current
dispatcher only ever claims candidates of the two known types, so this branch
is unreachable from the loop itself. -/
theorem C8_amended_unknown_type (la : Job → Option (String × String)) (s : State)
    (j : Job) (hu1 : j.type ≠ LIVE_CRAWL) (hu2 : j.type ≠ WAYBACK_DOWNLOAD) :
    dispatch_one la s j = s.mark_running j.id ∧
    (∀ (mpc mpd : Int) (c : Job), c ∈ dispatch_candidates s mpc mpd →
      c.type = LIVE_CRAWL ∨ c.type = WAYBACK_DOWNLOAD) := by
  constructor
  · simp only [dispatch_one, handle_job]
    rw [if_neg (by simp [hu1, hu2])]
  · intro mpc mpd c hc
    exact (mem_dispatch_candidates hc).2.2

theorem C8_amended_unknown_type_witness :
    dispatch_one (fun _ => some ("h", "l")) c8_state c8_job
      = c8_state.mark_running 1 :=
  (C8_amended_unknown_type (fun _ => some ("h", "l")) c8_state c8_job
    (by decide) (by decide)).1

/-- C9: for every job type and every (nonnegative) limit, fetch_next_pending
returns at most limit jobs, each PENDING of the requested type, sorted by
priority ascending and, within equal priority, by created_at ascending. -/
theorem C9_fetch_next_pending_order (s : State) (t : String) (limit : Int)
    (hlim : 0 ≤ limit) :
    (s.fetch_next_pending t limit).length ≤ limit.toNat ∧
    (∀ j ∈ s.fetch_next_pending t limit, j.status = "PENDING" ∧ j.type = t) ∧
    List.Sorted jobLE (s.fetch_next_pending t limit) := by
  refine ⟨?_, ?_, ?_⟩
  · simp only [State.fetch_next_pending]
    rw [if_neg (by omega)]
    exact (List.length_take _ _).le.trans (Nat.min_le_left _ _)
  · intro j hj
    exact ⟨(mem_fetch_next_pending hj).2.1, (mem_fetch_next_pending hj).2.2⟩
  · simp only [State.fetch_next_pending]
    rw [if_neg (by omega)]
    exact List.Pairwise.sublist (List.take_sublist _ _) (List.sorted_insertionSort jobLE _)

theorem C9_fetch_next_pending_order_witness :
    (c9_state.fetch_next_pending LIVE_CRAWL 2).length ≤ (2 : Int).toNat ∧
    (∀ j ∈ c9_state.fetch_next_pending LIVE_CRAWL 2,
      j.status = "PENDING" ∧ j.type = LIVE_CRAWL) ∧
    List.Sorted jobLE (c9_state.fetch_next_pending LIVE_CRAWL 2) :=
  C9_fetch_next_pending_order c9_state LIVE_CRAWL 2 (by decide)

/-- C10: mark_failed's max_retries parameter defaults to 0, and with it the
first recorded failure already has attempts >= max_retries, so the job goes
terminally FAILED (never back to PENDING); the reconciler passes that 0 for
every non-WAYBACK type, so a failed LIVE_CRAWL job is never retried, while a
WAYBACK_DOWNLOAD job with attempts + 1 still below the configured max_retries
returns to PENDING. -/
theorem C10_mark_failed_default_zero :
    (∀ (s : State) (id : Nat) (j : Job), s.findRow id = some j →
      (s.mark_failed id).findRow id
        = some { j with attempts := j.attempts + 1, status := "FAILED",
                        updated_at := s.now }) ∧
    (∀ (gs : String → String → BackendStatus) (mr : Int) (s : State) (j : Job),
      NodupIds s → j ∈ s.jobs → j.status = "RUNNING" → j.type = LIVE_CRAWL →
      (gs j.type j.job_name).status = "FAILED" →
      (reconcile gs mr s).rowStatus j.id = some "FAILED") ∧
    (∀ (gs : String → String → BackendStatus) (mr : Int) (s : State) (j : Job),
      NodupIds s → j ∈ s.jobs → j.status = "RUNNING" → j.type = WAYBACK_DOWNLOAD →
      (gs j.type j.job_name).status = "FAILED" →
      ((j.attempts + 1 : Nat) : Int) < mr →
      (reconcile gs mr s).rowStatus j.id = some "PENDING") := by
  refine ⟨?_, ?_, ?_⟩
  · intro s id j hrow
    show (s.mark_failed id 0).findRow id = _
    simp only [State.mark_failed, hrow]
    rw [if_pos (Int.natCast_nonneg _),
        findRow_updateJob_self s id
          (fun x => { x with attempts := j.attempts + 1, status := "FAILED",
                             updated_at := s.now }) (fun _ => rfl), hrow]
    rfl
  · intro gs mr s j hnd hj hrun htype hfail
    have hrr := reconcile_findRow_running gs mr s j hnd hj hrun
    show ((reconcile gs mr s).findRow j.id).map Job.status = _
    rw [hrr]
    simp only [reconcile_row]
    rw [if_neg (by simp [hfail]), if_pos (by simp [hfail])]
    have he : ¬ ((j.type == WAYBACK_DOWNLOAD) = true) := by
      rw [htype]
      decide
    rw [if_neg he, if_pos (Int.natCast_nonneg _)]
    rfl
  · intro gs mr s j hnd hj hrun htype hfail hlt
    have hrr := reconcile_findRow_running gs mr s j hnd hj hrun
    show ((reconcile gs mr s).findRow j.id).map Job.status = _
    rw [hrr]
    simp only [reconcile_row]
    rw [if_neg (by simp [hfail]), if_pos (by simp [hfail])]
    have he : ((j.type == WAYBACK_DOWNLOAD) = true) := by
      rw [htype]
      decide
    rw [if_pos he, if_neg (by omega)]
    rfl

theorem C10_mark_failed_default_zero_witness :
    (c10_live_state.mark_failed 1).findRow 1
      = some { c10_live_job with attempts := 1, status := "FAILED", updated_at := 3 } ∧
    (reconcile (fun _ _ => { status := "FAILED", crawl_count := 0, file_count := 0 })
        5 c10_live_state).rowStatus 1 = some "FAILED" ∧
    (reconcile (fun _ _ => { status := "FAILED", crawl_count := 0, file_count := 0 })
        5 c10_wb_state).rowStatus 1 = some "PENDING" :=
  ⟨C10_mark_failed_default_zero.1 c10_live_state 1 c10_live_job (by decide),
   C10_mark_failed_default_zero.2.1
     (fun _ _ => { status := "FAILED", crawl_count := 0, file_count := 0 })
     5 c10_live_state c10_live_job
     (by unfold NodupIds; decide) (by decide) (by decide) (by decide) (by decide),
   C10_mark_failed_default_zero.2.2
     (fun _ _ => { status := "FAILED", crawl_count := 0, file_count := 0 })
     5 c10_wb_state c10_wb_job
     (by unfold NodupIds; decide) (by decide) (by decide) (by decide) (by decide)
     (by decide)⟩

end Crawler
